import Mathlib

/-!
Shallow embedding of `piplc.py` (Raspberry Pi mini-PLC for an ABB IRC5 robot):
the control-loop state machine, edge/debounce detector, pulse scheduler,
outputs latch, and the file-based command/status channel.

Modelling conventions:
* All `now_ms()` / `time.time()` calls inside a single loop iteration are
  modelled by the single timestamp `t` carried by that iteration's input.
* The digital I/O backend is abstracted: input values arrive in the tick input,
  output writes are collected as `(stack, channel) × bool` pairs.
* File-system effects (status/counter writes, command-file removal) are
  collected as an explicit operation trace (`FsOp`).
* JSON parsing of the command file is abstracted by `CmdContent`: either the
  file content parsed to a command record or it did not parse.
-/

namespace Piplc

/-- The six controller modes (`self.mode` strings in the source). -/
inductive Mode
  | IDLE
  | STARTING
  | PICK_IN
  | MARKING
  | AFTER_MARK
  | ERROR
  deriving DecidableEq, Repr

/-- A channel spec from `config.yaml`: either a bare channel number or a
dict with an optional stack and a channel (`_stack_ch` accepts both). -/
inductive ChanSpec
  | ofInt (ch : Int)
  | ofDict (stack : Option Int) (ch : Int)
  deriving DecidableEq, Repr

/-- `_stack_ch(spec, default_stack)`: resolve a spec to `(stack, channel)`. -/
def stack_ch (spec : ChanSpec) (default_stack : Int) : Int × Int :=
  match spec with
  | .ofInt ch => (default_stack, ch)
  | .ofDict st ch => (st.getD default_stack, ch)

/-- A physical relay address. -/
abbrev Key := Int × Int

/-- The outputs-latch cache `self.state : (stack,ch) -> bool`, as an
insertion-ordered association list (mirrors Python dict semantics). -/
abbrev Latch := List (Key × Bool)

/-- Association-list lookup (Python `dict.get`). -/
def alookup {α β : Type} [DecidableEq α] : List (α × β) → α → Option β
  | [], _ => none
  | (k, v) :: rest, a => if k = a then some v else alookup rest a

/-- Association-list insert/update keeping the position of an existing key
(Python `dict[k] = v`). -/
def aupsert {α β : Type} [DecidableEq α] : List (α × β) → α → β → List (α × β)
  | [], a, b => [(a, b)]
  | (k, v) :: rest, a, b =>
    if k = a then (a, b) :: rest else (k, v) :: aupsert rest a b

/-- `OutputsLatch.set`: resolve the spec; if the cached state already equals
the requested value return with no physical write, otherwise issue the write
(returned in the second component) and update the cache. -/
def OutputsLatch.set (default_stack : Int) (st : Latch) (spec : ChanSpec)
    (val : Bool) : Latch × List (Key × Bool) :=
  let key := stack_ch spec default_stack
  if alookup st key = some val then (st, [])
  else (aupsert st key val, [(key, val)])

/-- Static configuration loaded once at startup (`PiPLC.__init__`). -/
structure Cfg where
  loop_ms : Nat
  debounce_obj : Nat
  batch_size : Nat
  target_default : Nat
  pulse_ms : Nat
  stack : Int
  in_map : List (String × ChanSpec)
  out_map : List (String × ChanSpec)
  deriving DecidableEq, Repr

/-- The mutable runtime fields of the `PiPLC` object. -/
structure LoopState where
  mode : Mode
  total_done : Nat
  batch_count : Nat
  target_n : Nat
  target_set : Bool
  obj_last : Nat
  obj_last_edge_ms : Nat
  hb_ms : Nat
  pulse_until : List (String × Nat)
  rel : Latch
  deriving DecidableEq, Repr

/-- Value of the `target` field of a parsed HMI command (a JSON value). -/
inductive TVal
  | missing
  | vint (n : Int)
  | vstr (s : String)
  | vnull
  | vbool (b : Bool)
  deriving DecidableEq, Repr

/-- Python truthiness of a `target` value (`missing` stands for the `get`
default `0`, which is falsy). -/
def tvalFalsy : TVal → Bool
  | .missing => true
  | .vint n => n = 0
  | .vstr s => s = ""
  | .vnull => true
  | .vbool b => !b

/-- `cmd.get("target", 0) or 0`. -/
def orZero (v : TVal) : TVal :=
  if tvalFalsy v then .vint 0 else v

/-- Digits of a decimal literal to a number, or `none` when the character
list is empty or holds a non-digit. -/
def digitsToNat : List Char → Option Nat
  | l =>
    if l ≠ [] ∧ l.all Char.isDigit then
      some (l.foldl (fun acc c => acc * 10 + (c.toNat - 48)) 0)
    else none

/-- Python `int(s)` on a string: optional surrounding spaces, optional sign,
then decimal digits; raises `ValueError` otherwise. -/
def pyIntOfString (s : String) : Except String Int :=
  let l := (((s.data.dropWhile (· = ' ')).reverse.dropWhile (· = ' ')).reverse)
  match l with
  | '-' :: rest =>
    match digitsToNat rest with
    | some n => .ok (-(n : Int))
    | none => .error "ValueError"
  | '+' :: rest =>
    match digitsToNat rest with
    | some n => .ok (n : Int)
    | none => .error "ValueError"
  | _ =>
    match digitsToNat l with
    | some n => .ok (n : Int)
    | none => .error "ValueError"

/-- Python `int(v)` on the (truthiness-filtered) target value. -/
def pyIntOfTVal : TVal → Except String Int
  | .vint n => .ok n
  | .vbool b => .ok (if b then 1 else 0)
  | .vstr s => pyIntOfString s
  | .vnull => .error "TypeError"
  | .missing => .ok 0

/-- A parsed HMI command record (field values after Python truthiness for the
three flags; `target` kept as a JSON value). -/
structure Cmd where
  reset : Bool := false
  calib : Bool := false
  auto : Bool := false
  target : TVal := .missing
  deriving DecidableEq, Repr

/-- Content of the command file: parsed to a command, or unparsable JSON. -/
inductive CmdContent
  | valid (c : Cmd)
  | invalid
  deriving DecidableEq, Repr

/-- Content of the persisted counter file as `load_count` sees it: a record
whose `count` field coerces to an int, or anything that makes it fall into
the `except` branch. -/
inductive CountFile
  | good (count : Int)
  | bad
  deriving DecidableEq, Repr

/-- `load_count()`: parse the counter file and return its `count`, or `0` on
any failure. -/
def load_count : Option CountFile → Int
  | some (.good n) => n
  | some .bad => 0
  | none => 0

/-- A record written to disk. -/
structure StatusRec where
  mode : Mode
  total_done : Nat
  batch_count : Nat
  target_n : Nat
  error : String
  ts : Nat
  deriving DecidableEq, Repr

/-- Payload of a file write. -/
inductive FileData
  | status (r : StatusRec)
  | count (c : Nat) (ts : Nat)
  deriving DecidableEq, Repr

/-- A file-system operation performed by the loop. -/
inductive FsOp
  | write (path : String) (d : FileData)
  | rename (src : String) (dst : String)
  | remove (path : String)
  deriving DecidableEq, Repr

/-- `save_state(d)`: write the temp file, then atomically rename it over the
status file. -/
def save_state (r : StatusRec) : List FsOp :=
  [.write "runtime_state.tmp" (.status r),
   .rename "runtime_state.tmp" "runtime_state.json"]

/-- `save_count(c)`: write the temp file, then atomically rename it over the
counter file. -/
def save_count (c : Nat) (ts : Nat) : List FsOp :=
  [.write "pick_counter.tmp" (.count c ts),
   .rename "pick_counter.tmp" "pick_counter.json"]

/-- `PiPLC.save_runtime(err)`: publish the current status record. -/
def save_runtime (s : LoopState) (err : String) (t : Nat) : List FsOp :=
  save_state ⟨s.mode, s.total_done, s.batch_count, s.target_n, err, t⟩

/-- `read_cmd()`: returns the drained command, the command-file content left
in the mailbox afterwards, and the file operations performed.  The
`os.remove` sits inside the `try` after a successful `json.loads`, so an
unparsable file is returned as `None` and left in place. -/
def read_cmd : Option CmdContent → Option Cmd × Option CmdContent × List FsOp
  | none => (none, none, [])
  | some .invalid => (none, some .invalid, [])
  | some (.valid c) => (some c, none, [.remove "hmi_cmd.json"])

/-- `PiPLC.__init__` runtime state: mode `IDLE`, both counters `0`, target
from configuration, no target armed.  The persisted counter file is passed in
to show it is not consulted (`load_count` is never called in the source). -/
def initState (cfg : Cfg) (countFile : Option CountFile) : LoopState :=
  { mode := .IDLE
    total_done := 0
    batch_count := 0
    target_n := cfg.target_default
    target_set := false
    obj_last := 0
    obj_last_edge_ms := 0
    hb_ms := 0
    pulse_until := []
    rel := [] }

/-- `PiPLC._out(name, val)` on the latch cache, also returning the physical
writes issued: a name absent from the output map is a silent no-op. -/
def outW (cfg : Cfg) (rel : Latch) (name : String) (val : Bool) :
    Latch × List (Key × Bool) :=
  match alookup cfg.out_map name with
  | none => (rel, [])
  | some spec => OutputsLatch.set cfg.stack rel spec val

/-- `PiPLC._pulse(name, dur_ms)`: if the name is configured, drive it high
and record `now + dur` as its expiry (overwriting any pending expiry); the
second component lists the pulse actually fired. -/
def pulseFire (cfg : Cfg) (s : LoopState) (t : Nat) (name : String)
    (dur : Nat) : LoopState × List String :=
  match alookup cfg.out_map name with
  | none => (s, [])
  | some _ =>
    let rel := (outW cfg s.rel name true).1
    ({ s with rel := rel, pulse_until := aupsert s.pulse_until name (t + dur) },
     [name])

/-- One step of the `_service_pulses` loop body: drive one expired pulse's
output low, accumulating the physical writes. -/
def serviceStepFn (cfg : Cfg) (acc : Latch × List (Key × Bool))
    (p : String × Nat) : Latch × List (Key × Bool) :=
  let ow := outW cfg acc.1 p.1 false
  (ow.1, acc.2 ++ ow.2)

/-- `PiPLC._service_pulses()`: drive every expired pulse low and drop its
entry; returns the physical writes issued. -/
def service_pulses (cfg : Cfg) (s : LoopState) (t : Nat) :
    LoopState × List (Key × Bool) :=
  let expired := s.pulse_until.filter (fun p => decide (t ≥ p.2))
  let keep := s.pulse_until.filter (fun p => !decide (t ≥ p.2))
  let folded := expired.foldl (serviceStepFn cfg) (s.rel, [])
  ({ s with rel := folded.1, pulse_until := keep }, folded.2)

/-- `PiPLC.safe_outputs()`: drive every configured output low and clear the
pending-pulse table. -/
def safe_outputs (cfg : Cfg) (s : LoopState) : LoopState :=
  let rel := cfg.out_map.foldl
    (fun r p => (OutputsLatch.set cfg.stack r p.2 false).1) s.rel
  { s with rel := rel, pulse_until := [] }

/-- `PiPLC.edge_obj(val)`: accept a rising edge only when the raw value is 1,
the previous sample was 0 and at least `debounce_obj` ms passed since the
previously accepted edge; the last sample is stored unconditionally. -/
def edge_obj (cfg : Cfg) (s : LoopState) (val : Nat) (t : Nat) :
    LoopState × Bool :=
  if val = 1 ∧ s.obj_last = 0 ∧ t - s.obj_last_edge_ms ≥ cfg.debounce_obj then
    ({ s with obj_last_edge_ms := t, obj_last := val }, true)
  else
    ({ s with obj_last := val }, false)

/-- `PiPLC.handle_cmd(cmd)`: apply reset, then calib, then auto, in that
order.  `int()` on the target can raise (propagated as `.error`); returns the
pulses fired. -/
def handle_cmd (cfg : Cfg) (s : LoopState) (t : Nat) (c : Option Cmd) :
    Except String (LoopState × List String) :=
  match c with
  | none => .ok (s, [])
  | some cmd =>
    let s := if cmd.reset then
        safe_outputs cfg { s with mode := .IDLE, total_done := 0,
                                  batch_count := 0, target_set := false }
      else s
    let sf := if cmd.calib then
        let pf := pulseFire cfg s t "r_calib_req" cfg.pulse_ms
        ({ pf.1 with mode := Mode.IDLE }, pf.2)
      else (s, [])
    let s := sf.1
    let fired := sf.2
    if cmd.auto then
      match pyIntOfTVal (orZero cmd.target) with
      | .error e => .error e
      | .ok tgt =>
        if 0 < tgt then
          .ok ({ s with target_n := tgt.toNat, total_done := 0,
                        batch_count := 0, target_set := true,
                        mode := .STARTING }, fired)
        else .ok (s, fired)
    else .ok (s, fired)

/-- Sensor values and environment of one loop iteration. -/
structure TickIn where
  t : Nat
  cmdFile : Option CmdContent
  readFail : Bool
  btn_start : Nat
  obj_sig : Nat
  ready_sig : Nat
  next_sig : Nat
  err_sig : Nat
  deriving DecidableEq, Repr

/-- Observable effects of one loop iteration. -/
structure TickOut where
  fsOps : List FsOp
  fired : List String
  deriving DecidableEq, Repr

/-- Heartbeat toggle at the top of the loop: if `pi_alive` is configured and
more than 500 ms passed since the last toggle, invert its cached level. -/
def hbStep (cfg : Cfg) (s : LoopState) (t : Nat) : LoopState :=
  match alookup cfg.out_map "pi_alive" with
  | some spec =>
    if t - s.hb_ms > 500 then
      let key := stack_ch spec cfg.stack
      let cur := (alookup s.rel key).getD false
      { s with hb_ms := t,
               rel := (OutputsLatch.set cfg.stack s.rel spec (!cur)).1 }
    else s
  | none => s

/-- The PICK_IN decision chain after the object-edge step: finish the run
when the target is met (close the open batch first if any), else close a
full batch, else answer the robot's ready signal with a continue pulse.
`s` is the state with the edge step already applied and `countOps` the
counter-file operations it produced. -/
def pickBody (cfg : Cfg) (s : LoopState) (i : TickIn) (countOps : List FsOp) :
    LoopState × List String × List FsOp :=
  if s.total_done ≥ s.target_n then
    if s.batch_count = 0 then
      let pf := pulseFire cfg s i.t "count_ok" cfg.pulse_ms
      let s := { pf.1 with mode := Mode.IDLE }
      (s, pf.2, countOps ++ save_runtime s "" i.t)
    else
      let pf := pulseFire cfg s i.t "over_signal" cfg.pulse_ms
      let s := { pf.1 with mode := Mode.MARKING }
      (s, pf.2, countOps ++ save_runtime s "" i.t)
  else if s.batch_count ≥ cfg.batch_size then
    let pf := pulseFire cfg s i.t "over_signal" cfg.pulse_ms
    let s := { pf.1 with mode := Mode.MARKING }
    (s, pf.2, countOps ++ save_runtime s "" i.t)
  else
    let pf := if i.ready_sig = 1 then
        pulseFire cfg s i.t "continue_signal" cfg.pulse_ms
      else (s, [])
    (pf.1, pf.2, countOps ++ save_runtime pf.1 "" i.t)

/-- The per-mode section of the loop body (reached only when the input read
succeeded and no robot error is asserted).  Returns the new state, the pulses
fired and the file operations performed. -/
def stateStep (cfg : Cfg) (s : LoopState) (i : TickIn) :
    LoopState × List String × List FsOp :=
  match s.mode with
  | .IDLE =>
    let s := { s with batch_count := 0 }
    let s := if s.target_set ∧ i.btn_start = 1 then { s with mode := Mode.STARTING }
      else s
    (s, [], save_runtime s "" i.t)
  | .STARTING =>
    let pf := pulseFire cfg s i.t "start_signal" cfg.pulse_ms
    let s := { pf.1 with batch_count := 0, mode := Mode.PICK_IN }
    (s, pf.2, save_runtime s "" i.t)
  | .PICK_IN =>
    let eo := edge_obj cfg s i.obj_sig i.t
    let s := eo.1
    let sc := if eo.2 then
        ({ s with batch_count := s.batch_count + 1,
                  total_done := s.total_done + 1 },
         save_count (s.total_done + 1) i.t)
      else (s, [])
    pickBody cfg sc.1 i sc.2
  | .MARKING =>
    let s := { s with mode := Mode.AFTER_MARK }
    (s, [], save_runtime s "" i.t)
  | .AFTER_MARK =>
    if i.next_sig = 1 then
      if s.total_done ≥ s.target_n then
        let pf := pulseFire cfg s i.t "count_ok" cfg.pulse_ms
        let s := { pf.1 with mode := Mode.IDLE, batch_count := 0 }
        (s, pf.2, save_runtime s "" i.t)
      else
        let s := { s with batch_count := 0, mode := Mode.PICK_IN }
        (s, [], save_runtime s "" i.t)
    else (s, [], [])
  | .ERROR => (s, [], save_runtime s "ERROR state" i.t)

/-- The two loop steps that precede command handling: heartbeat toggle, then
pulse servicing. -/
def tickPre (cfg : Cfg) (s : LoopState) (t : Nat) : LoopState :=
  (service_pulses cfg (hbStep cfg s t) t).1

/-- The loop body after command handling: the input read (a failed read
records the error and skips state evaluation), the robot-error check, then
the state machine.  `rm`/`fired0` are the file operations and pulses already
produced by draining and applying the command. -/
def tickRest (cfg : Cfg) (s : LoopState) (i : TickIn) (rm : List FsOp)
    (fired0 : List String) : LoopState × TickOut :=
  if i.readFail then
    (s, ⟨rm ++ save_runtime s "IO read error" i.t, fired0⟩)
  else
    let errEff := if (alookup cfg.in_map "r_error").isSome then i.err_sig
      else 0
    if errEff = 1 then
      let s := { safe_outputs cfg s with mode := Mode.ERROR }
      (s, ⟨rm ++ save_runtime s "Robot error" i.t, fired0⟩)
    else
      let so := stateStep cfg s i
      (so.1, ⟨rm ++ so.2.2, fired0 ++ so.2.1⟩)

/-- One iteration of `PiPLC.loop`: heartbeat, service pulses, drain and apply
one command, then the rest of the body.  An exception from command handling
escapes the loop (`.error`). -/
def tick (cfg : Cfg) (s : LoopState) (i : TickIn) :
    Except String (LoopState × TickOut) :=
  let s := tickPre cfg s i.t
  let rc := read_cmd i.cmdFile
  match handle_cmd cfg s i.t rc.1 with
  | .error e => .error e
  | .ok (s, fired0) => .ok (tickRest cfg s i rc.2.2 fired0)

/-- Run a list of loop iterations. -/
def ticks (cfg : Cfg) : LoopState → List TickIn → Except String LoopState
  | s, [] => .ok s
  | s, i :: rest =>
    match tick cfg s i with
    | .error e => .error e
    | .ok (s', _) => ticks cfg s' rest

/-- Fold the edge detector over a list of `(raw value, timestamp)` samples,
collecting the timestamps of the accepted edges. -/
def runDetect (cfg : Cfg) : LoopState → List (Nat × Nat) → LoopState × List Nat
  | s, [] => (s, [])
  | s, (v, t) :: rest =>
    let eo := edge_obj cfg s v t
    let rd := runDetect cfg eo.1 rest
    (rd.1, if eo.2 then t :: rd.2 else rd.2)

/-- Mode of a loop result, `none` when the loop crashed. -/
def modeOf (r : Except String LoopState) : Option Mode :=
  match r with
  | .ok s => some s.mode
  | .error _ => none

/-- Batch counter of a loop result. -/
def batchOf (r : Except String LoopState) : Option Nat :=
  match r with
  | .ok s => some s.batch_count
  | .error _ => none

/-- Total counter of a loop result. -/
def totalOf (r : Except String LoopState) : Option Nat :=
  match r with
  | .ok s => some s.total_done
  | .error _ => none

/-- Armed target of a loop result. -/
def targetOf (r : Except String LoopState) : Option Nat :=
  match r with
  | .ok s => some s.target_n
  | .error _ => none

/-- A command file that drains to no mode- or counter-changing command:
absent, unparsable, or a command with none of the three flags truthy. -/
def benignCmd : Option CmdContent → Bool
  | some (.valid c) => !c.reset && !c.calib && !c.auto
  | _ => true

/-- A command file whose drained command cannot reset the counters (no
`reset`, no `auto`; `calib` allowed since it leaves both counters alone). -/
def noCounterCmd : Option CmdContent → Bool
  | some (.valid c) => !c.reset && !c.auto
  | _ => true

/-- A command file that arms a run: parses to a command with `auto` truthy
and a target that `int()` converts to a positive value. -/
def armingCmd : Option CmdContent → Bool
  | some (.valid c) =>
    c.auto &&
      (match pyIntOfTVal (orZero c.target) with
       | .ok n => decide (0 < n)
       | .error _ => false)
  | _ => false

/-- States reachable inside a single run: the state at the end of the tick
that processed an arming command (from an arbitrary prior state), extended by
ticks that start outside `IDLE` and drain no mode/counter command.  Reaching
`IDLE` ends the run (the terminal `IDLE` state is still in the run). -/
inductive ReachRun (cfg : Cfg) : LoopState → Prop
  | armed (s : LoopState) (i : TickIn) (p : LoopState × TickOut)
      (harm : armingCmd i.cmdFile = true) (h : tick cfg s i = .ok p) :
      ReachRun cfg p.1
  | step (s : LoopState) (i : TickIn) (p : LoopState × TickOut)
      (hs : ReachRun cfg s) (hm : s.mode ≠ .IDLE)
      (hb : benignCmd i.cmdFile = true) (h : tick cfg s i = .ok p) :
      ReachRun cfg p.1

/-- The counter invariant maintained inside a run. -/
def RunInv (cfg : Cfg) (s : LoopState) : Prop :=
  s.total_done ≤ s.target_n ∧
  s.batch_count ≤ cfg.batch_size ∧
  0 < s.target_n ∧
  ((s.mode = .PICK_IN ∨ s.mode = .STARTING) → s.total_done < s.target_n) ∧
  (s.mode = .PICK_IN → s.batch_count < cfg.batch_size)

/-- Every interaction with the status file in an operation trace is a full
write of the temp file immediately followed by the atomic rename; any direct
write to the status file, rename onto it from elsewhere, or stray temp write
is rejected. -/
def wfStatusOps : List FsOp → Bool
  | [] => true
  | FsOp.write "runtime_state.tmp" (FileData.status _) ::
      FsOp.rename "runtime_state.tmp" "runtime_state.json" :: rest =>
    wfStatusOps rest
  | FsOp.write "runtime_state.json" _ :: _ => false
  | FsOp.write "runtime_state.tmp" _ :: _ => false
  | FsOp.rename _ dst :: rest =>
    if dst = "runtime_state.json" then false else wfStatusOps rest
  | _ :: rest => wfStatusOps rest

/-- Number of status-file publications (renames onto the status file) in an
operation trace. -/
def statusCount (ops : List FsOp) : Nat :=
  (ops.filter (fun op =>
    match op with
    | FsOp.rename _ "runtime_state.json" => true
    | _ => false)).length

/-- The handshake pulses fired in a tick among the three PICK_IN steps
(finish, close batch, request more picks). -/
def handshakeFired (l : List String) : List String :=
  l.filter (fun n =>
    n = "count_ok" || n = "over_signal" || n = "continue_signal")

/-- Physical address a logical output name resolves to, when configured. -/
def outKey (cfg : Cfg) (name : String) : Option Key :=
  (alookup cfg.out_map name).map (fun sp => stack_ch sp cfg.stack)

/-! ### Concrete fixtures used by witnesses and counterexamples -/

/-- A representative configuration (all handshake signals mapped). -/
def wCfg : Cfg :=
  { loop_ms := 20
    debounce_obj := 80
    batch_size := 2
    target_default := 100
    pulse_ms := 150
    stack := 0
    in_map := [("btn_start", .ofInt 1), ("object_signal", .ofInt 2),
               ("ready_signal", .ofInt 3), ("next_signal", .ofInt 4),
               ("r_error", .ofInt 5)]
    out_map := [("start_signal", .ofInt 1), ("continue_signal", .ofInt 2),
                ("over_signal", .ofInt 3), ("count_ok", .ofInt 4),
                ("r_calib_req", .ofInt 5)] }

/-- The state right after process start under `wCfg`. -/
def wInit : LoopState := initState wCfg none

/-- A tick with all inputs low and nothing in the mailbox. -/
def wQuiet (t : Nat) : TickIn :=
  { t := t, cmdFile := none, readFail := false, btn_start := 0, obj_sig := 0,
    ready_sig := 0, next_sig := 0, err_sig := 0 }

/-- A tick whose mailbox holds an arming command. -/
def wArm (t : Nat) (tgt : Int) : TickIn :=
  { wQuiet t with cmdFile := some (.valid { auto := true, target := .vint tgt }) }

/-- A tick with the robot error input asserted. -/
def wErrIn : TickIn := { wQuiet 1000 with err_sig := 1 }

/-- A tick whose mailbox holds a calibration command (no reset flag). -/
def wCalibIn : TickIn :=
  { wQuiet 1100 with cmdFile := some (.valid { calib := true }) }

/-- Arm target 4, count two objects (batch closes), wait through MARKING:
ends in AFTER_MARK with `batch_count = 2`. -/
def wRunTrace : List TickIn :=
  [wArm 1000 4,
   { wQuiet 1100 with obj_sig := 1 },
   { wQuiet 1200 with obj_sig := 0 },
   { wQuiet 1300 with obj_sig := 1 },
   wQuiet 1400]

/-- `wRunTrace` followed by the robot's `next` signal: the controller re-opens
a batch (`batch_count` drops from 2 to 0) while the run is still going. -/
def wRunTrace2 : List TickIn :=
  wRunTrace ++ [{ wQuiet 1500 with next_sig := 1 }]

/-- Arm target 1, complete it, and restart twice via the start button without
re-arming; the final edge pushes `total_done` to 2 with `target_n = 1`. -/
def wOverTrace : List TickIn :=
  [wArm 1000 1,
   { wQuiet 1100 with obj_sig := 1 },
   wQuiet 1200,
   { wQuiet 1300 with next_sig := 1 },
   { wQuiet 1400 with btn_start := 1 },
   wQuiet 1500,
   { wQuiet 1600 with obj_sig := 0 },
   { wQuiet 1700 with btn_start := 1 },
   wQuiet 1800,
   { wQuiet 1900 with obj_sig := 1 }]

/-- Samples for the detector: an accepted edge at 100, a fall, then a rise at
120 held through 260 (well past one debounce window) that yields no edge. -/
def wDetSamples : List (Nat × Nat) :=
  [(1, 100), (0, 110), (1, 120), (1, 150), (1, 210), (1, 260)]

/-- A PICK_IN state whose target is already met with no open batch. -/
def wPickDone : LoopState :=
  { wInit with mode := .PICK_IN, total_done := 5, target_n := 5,
               batch_count := 0, target_set := true }

/-- A tick whose mailbox holds an auto command with a non-numeric target. -/
def wBadAuto : TickIn :=
  { wQuiet 1000 with
    cmdFile := some (.valid { auto := true, target := .vstr "abc" }) }

/-- Mode of the post-state of a single tick, `none` when it crashed. -/
def modeOfPair (r : Except String (LoopState × TickOut)) : Option Mode :=
  match r with
  | .ok p => some p.1.mode
  | .error _ => none

/-- A state with one pending pulse on `over_signal` expiring at 500 ms. -/
def wPulseState : LoopState :=
  { wInit with pulse_until := [("over_signal", 500)] }

/-- Run a trace, then one more tick, returning that tick's post-state and
effects (`none` when anything crashed). -/
def thenTick (cfg : Cfg) (s0 : LoopState) (tr : List TickIn) (i : TickIn) :
    Option (LoopState × TickOut) :=
  match ticks cfg s0 tr with
  | .ok s => (tick cfg s i).toOption
  | .error _ => none

/-! ## Helper lemmas -/

theorem alookup_aupsert_self {α β : Type} [DecidableEq α]
    (l : List (α × β)) (k : α) (v : β) :
    alookup (aupsert l k v) k = some v := by
  induction l with
  | nil => simp [aupsert, alookup]
  | cons p rest ih =>
    obtain ⟨a, b⟩ := p
    by_cases h : a = k
    · subst h; simp [aupsert, alookup]
    · simp [aupsert, alookup, h, ih]

theorem alookup_aupsert_ne {α β : Type} [DecidableEq α]
    (l : List (α × β)) (k k' : α) (v : β) (h : k' ≠ k) :
    alookup (aupsert l k v) k' = alookup l k' := by
  have h' : k ≠ k' := Ne.symm h
  induction l with
  | nil => simp [aupsert, alookup, h']
  | cons p rest ih =>
    obtain ⟨a, b⟩ := p
    by_cases ha : a = k
    · subst ha
      simp [aupsert, alookup, h']
    · simp [aupsert, alookup, ha, ih]

theorem hbStep_counters (cfg : Cfg) (s : LoopState) (t : Nat) :
    (hbStep cfg s t).mode = s.mode ∧
    (hbStep cfg s t).total_done = s.total_done ∧
    (hbStep cfg s t).batch_count = s.batch_count ∧
    (hbStep cfg s t).target_n = s.target_n ∧
    (hbStep cfg s t).target_set = s.target_set ∧
    (hbStep cfg s t).obj_last = s.obj_last ∧
    (hbStep cfg s t).obj_last_edge_ms = s.obj_last_edge_ms ∧
    (hbStep cfg s t).pulse_until = s.pulse_until := by
  unfold hbStep
  split
  · split
    · exact ⟨rfl, rfl, rfl, rfl, rfl, rfl, rfl, rfl⟩
    · exact ⟨rfl, rfl, rfl, rfl, rfl, rfl, rfl, rfl⟩
  · exact ⟨rfl, rfl, rfl, rfl, rfl, rfl, rfl, rfl⟩

theorem tickPre_counters (cfg : Cfg) (s : LoopState) (t : Nat) :
    (tickPre cfg s t).mode = s.mode ∧
    (tickPre cfg s t).total_done = s.total_done ∧
    (tickPre cfg s t).batch_count = s.batch_count ∧
    (tickPre cfg s t).target_n = s.target_n ∧
    (tickPre cfg s t).target_set = s.target_set ∧
    (tickPre cfg s t).obj_last = s.obj_last ∧
    (tickPre cfg s t).obj_last_edge_ms = s.obj_last_edge_ms := by
  obtain ⟨h1, h2, h3, h4, h5, h6, h7, _⟩ := hbStep_counters cfg s t
  exact ⟨h1, h2, h3, h4, h5, h6, h7⟩

theorem pulseFire_counters (cfg : Cfg) (s : LoopState) (t : Nat)
    (name : String) (d : Nat) :
    (pulseFire cfg s t name d).1.mode = s.mode ∧
    (pulseFire cfg s t name d).1.total_done = s.total_done ∧
    (pulseFire cfg s t name d).1.batch_count = s.batch_count ∧
    (pulseFire cfg s t name d).1.target_n = s.target_n ∧
    (pulseFire cfg s t name d).1.target_set = s.target_set ∧
    (pulseFire cfg s t name d).1.obj_last = s.obj_last ∧
    (pulseFire cfg s t name d).1.obj_last_edge_ms = s.obj_last_edge_ms := by
  unfold pulseFire
  split
  · exact ⟨rfl, rfl, rfl, rfl, rfl, rfl, rfl⟩
  · exact ⟨rfl, rfl, rfl, rfl, rfl, rfl, rfl⟩

theorem handle_cmd_none (cfg : Cfg) (s : LoopState) (t : Nat) :
    handle_cmd cfg s t none = .ok (s, []) := rfl

theorem handle_cmd_benign (cfg : Cfg) (s : LoopState) (t : Nat)
    (f : Option CmdContent) (h : benignCmd f = true) :
    handle_cmd cfg s t (read_cmd f).1 = .ok (s, []) := by
  match f with
  | none => rfl
  | some .invalid => rfl
  | some (.valid c) =>
    simp only [benignCmd, Bool.and_eq_true, Bool.not_eq_true'] at h
    obtain ⟨⟨h1, h2⟩, h3⟩ := h
    simp [read_cmd, handle_cmd, h1, h2, h3]

theorem tick_benign (cfg : Cfg) (s : LoopState) (i : TickIn)
    (h : benignCmd i.cmdFile = true) :
    tick cfg s i =
      .ok (tickRest cfg (tickPre cfg s i.t) i (read_cmd i.cmdFile).2.2 []) := by
  unfold tick
  simp only [handle_cmd_benign cfg (tickPre cfg s i.t) i.t i.cmdFile h]

theorem stateStep_error (cfg : Cfg) (s : LoopState) (i : TickIn)
    (hm : s.mode = Mode.ERROR) :
    stateStep cfg s i = (s, [], save_runtime s "ERROR state" i.t) := by
  unfold stateStep
  rw [hm]

theorem edge_obj_pos (cfg : Cfg) (s : LoopState) (v t : Nat)
    (h : v = 1 ∧ s.obj_last = 0 ∧ t - s.obj_last_edge_ms ≥ cfg.debounce_obj) :
    edge_obj cfg s v t = ({ s with obj_last_edge_ms := t, obj_last := v }, true) := by
  unfold edge_obj
  rw [if_pos h]

theorem edge_obj_neg (cfg : Cfg) (s : LoopState) (v t : Nat)
    (h : ¬(v = 1 ∧ s.obj_last = 0 ∧ t - s.obj_last_edge_ms ≥ cfg.debounce_obj)) :
    edge_obj cfg s v t = ({ s with obj_last := v }, false) := by
  unfold edge_obj
  rw [if_neg h]

theorem chain_lt_drop {a t : Nat} {l : List Nat}
    (h : List.Chain' (· < ·) (a :: t :: l)) :
    List.Chain' (· < ·) (a :: l) := by
  rcases l with _ | ⟨u, l'⟩
  · simp
  · rw [List.chain'_cons] at h
    obtain ⟨hat, h2⟩ := h
    rw [List.chain'_cons] at h2
    exact List.chain'_cons.mpr ⟨lt_trans hat h2.1, h2.2⟩

theorem runDetect_chain (cfg : Cfg) :
    ∀ (samples : List (Nat × Nat)) (s : LoopState),
    List.Chain' (· < ·) (s.obj_last_edge_ms :: samples.map Prod.snd) →
    List.Chain' (fun a b => a + cfg.debounce_obj ≤ b)
      (s.obj_last_edge_ms :: (runDetect cfg s samples).2) := by
  intro samples
  induction samples with
  | nil =>
    intro s _
    simp [runDetect]
  | cons p rest ih =>
    obtain ⟨v, t⟩ := p
    intro s h
    rw [List.map_cons, List.chain'_cons] at h
    obtain ⟨hlt, hch⟩ := h
    by_cases hacc : v = 1 ∧ s.obj_last = 0 ∧
        t - s.obj_last_edge_ms ≥ cfg.debounce_obj
    · have hrun : (runDetect cfg s ((v, t) :: rest)).2 =
          t :: (runDetect cfg { s with obj_last_edge_ms := t, obj_last := v }
            rest).2 := by
        simp [runDetect, edge_obj_pos cfg s v t hacc]
      rw [hrun]
      have ih' := ih { s with obj_last_edge_ms := t, obj_last := v } hch
      refine List.chain'_cons.mpr ⟨?_, ih'⟩
      obtain ⟨_, _, h3⟩ := hacc
      omega
    · have hrun : (runDetect cfg s ((v, t) :: rest)).2 =
          (runDetect cfg { s with obj_last := v } rest).2 := by
        simp [runDetect, edge_obj_neg cfg s v t hacc]
      rw [hrun]
      exact ih { s with obj_last := v }
        (chain_lt_drop (List.chain'_cons.mpr ⟨hlt, hch⟩))

/-! ## C1: ERROR mode latching -/

/-- C1 counterexample: from a reachable ERROR state, a tick that drains a
command with `calib` truthy and `reset` falsy moves the mode to IDLE, so
ERROR is not recoverable only via reset. -/
theorem c1_counterexample :
    modeOf (ticks wCfg wInit [wErrIn]) = some Mode.ERROR ∧
    wCalibIn.cmdFile = some (CmdContent.valid { calib := true }) ∧
    ({ calib := true : Cmd }).reset = false ∧
    modeOf (ticks wCfg wInit [wErrIn, wCalibIn]) = some Mode.IDLE := by
  exact ⟨rfl, rfl, rfl, rfl⟩

/-- C1 (amended): once the controller is in ERROR mode it stays in ERROR
across every tick whose drained command has none of `reset`, `calib`, `auto`
truthy (absent or unparsable command files included); a `calib` command moves
it to IDLE and an `auto` command with positive target moves it to STARTING. -/
theorem c1_error_latched (cfg : Cfg) (s : LoopState) (i : TickIn)
    (p : LoopState × TickOut) (hmode : s.mode = Mode.ERROR)
    (hb : benignCmd i.cmdFile = true) (h : tick cfg s i = .ok p) :
    p.1.mode = Mode.ERROR := by
  rw [tick_benign cfg s i hb] at h
  have hp : p = tickRest cfg (tickPre cfg s i.t) i (read_cmd i.cmdFile).2.2 [] := by
    injection h with h'
    exact h'.symm
  subst hp
  obtain ⟨hm, _, _, _, _, _, _⟩ := tickPre_counters cfg s i.t
  unfold tickRest
  by_cases hrf : i.readFail
  · simp [hrf, hm, hmode]
  · by_cases herr :
        (if (alookup cfg.in_map "r_error").isSome then i.err_sig else 0) = 1
    · simp [hrf, herr]
    · simp only [hrf, herr, if_neg, ite_false]
      rw [stateStep_error cfg (tickPre cfg s i.t) i (hm.trans hmode)]
      exact hm.trans hmode

/-- C1 witness: a concrete ERROR state and a concrete quiet tick for which
the amended theorem applies. -/
theorem c1_witness :
    ({ wInit with mode := Mode.ERROR } : LoopState).mode = Mode.ERROR ∧
    benignCmd (wQuiet 2000).cmdFile = true ∧
    modeOfPair (tick wCfg { wInit with mode := Mode.ERROR } (wQuiet 2000)) =
      some Mode.ERROR := by
  refine ⟨rfl, rfl, ?_⟩
  obtain ⟨p, hp⟩ : ∃ p, tick wCfg { wInit with mode := Mode.ERROR } (wQuiet 2000) = .ok p :=
    ⟨_, rfl⟩
  rw [show modeOfPair (tick wCfg { wInit with mode := Mode.ERROR } (wQuiet 2000)) =
      some p.1.mode from by rw [hp]; rfl]
  rw [c1_error_latched wCfg { wInit with mode := Mode.ERROR } (wQuiet 2000) p rfl rfl hp]

/-! ## C2: edge/debounce detector -/

/-- C2 counterexample: with a debounce window of 80 ms, samples containing a
0→1 transition at t = 120 that stays high through t = 260 (held past a full
window) yield only the edge accepted at t = 100 — the held transition
produces no edge at all, because it began less than 80 ms after the
previously accepted edge. -/
theorem c2_counterexample :
    (runDetect wCfg wInit wDetSamples).2 = [100] ∧
    wCfg.debounce_obj = 80 ∧
    wDetSamples = [(1, 100), (0, 110), (1, 120), (1, 150), (1, 210), (1, 260)] := by
  exact ⟨rfl, rfl, rfl⟩

/-- C2 (amended): `detect` returns true exactly when the raw value is 1, the
previous sample was 0, and at least `debounce_ms` elapsed since the
previously accepted edge (initially since time 0); the last sample is stored
unconditionally; and over any time-increasing sample sequence consecutive
accepted edges are at least one debounce window apart.  A 0→1 transition
arriving within the window of the previous accepted edge is discarded
entirely (not deferred), even if held longer than the window. -/
theorem c2_detector :
    (∀ (cfg : Cfg) (s : LoopState) (v t : Nat),
        (edge_obj cfg s v t).2 = true ↔
          (v = 1 ∧ s.obj_last = 0 ∧
            cfg.debounce_obj ≤ t - s.obj_last_edge_ms)) ∧
    (∀ (cfg : Cfg) (s : LoopState) (v t : Nat),
        (edge_obj cfg s v t).1.obj_last = v) ∧
    (∀ (cfg : Cfg) (s : LoopState) (samples : List (Nat × Nat)),
        List.Chain' (· < ·) (s.obj_last_edge_ms :: samples.map Prod.snd) →
        List.Chain' (fun a b => a + cfg.debounce_obj ≤ b)
          (s.obj_last_edge_ms :: (runDetect cfg s samples).2)) := by
  refine ⟨?_, ?_, ?_⟩
  · intro cfg s v t
    unfold edge_obj
    split
    · next h => exact iff_of_true rfl ⟨h.1, h.2.1, h.2.2⟩
    · next h => exact iff_of_false (by simp) (fun hc => h ⟨hc.1, hc.2.1, hc.2.2⟩)
  · intro cfg s v t
    unfold edge_obj
    split <;> rfl
  · intro cfg s samples h
    exact runDetect_chain cfg samples s h

/-- C2 witness: the sample times of the counterexample trace are strictly
increasing, and the amended spacing property applies to them. -/
theorem c2_witness :
    List.Chain' (· < ·) (wInit.obj_last_edge_ms :: wDetSamples.map Prod.snd) ∧
    List.Chain' (fun a b => a + wCfg.debounce_obj ≤ b)
      (wInit.obj_last_edge_ms :: (runDetect wCfg wInit wDetSamples).2) :=
  ⟨by norm_num [wInit, initState, wDetSamples, List.chain'_cons],
   c2_detector.2.2 wCfg wInit wDetSamples
     (by norm_num [wInit, initState, wDetSamples, List.chain'_cons])⟩

/-! ## C4: command-file consumption -/

/-- C4 counterexample: an unparsable command file is returned as no command
but left in the mailbox with no remove operation, so it is not deleted
"whether or not it parsed" — it will be re-read on every subsequent tick. -/
theorem c4_counterexample :
    (read_cmd (some CmdContent.invalid)).2.1 = some CmdContent.invalid ∧
    (read_cmd (some CmdContent.invalid)).2.2 = [] ∧
    (read_cmd (some (CmdContent.valid { reset := true }))).2.1 = none := by
  exact ⟨rfl, rfl, rfl⟩

/-- C4 (amended): a command file whose content parses as JSON is consumed at
most once (drained and removed from the mailbox immediately); an unparsable
file is treated as no command but is left in place, not deleted; an absent
file is no command. -/
theorem c4_read_cmd :
    (∀ c : Cmd, read_cmd (some (.valid c)) =
      (some c, none, [FsOp.remove "hmi_cmd.json"])) ∧
    read_cmd (some .invalid) = (none, some .invalid, []) ∧
    read_cmd none = (none, none, []) :=
  ⟨fun _ => rfl, rfl, rfl⟩

/-! ## C5: auto command with bad target -/

/-- C5 counterexample: an auto command whose target is a non-numeric string
makes `int()` raise, the exception propagates out of `handle_cmd`, and the
tick (hence the loop) dies with it — malformed command data does raise. -/
theorem c5_counterexample :
    handle_cmd wCfg wInit 1000
      (some { auto := true, target := TVal.vstr "abc" }) =
      Except.error "ValueError" ∧
    tick wCfg wInit wBadAuto = Except.error "ValueError" := by
  exact ⟨rfl, rfl⟩

/-- C5 (amended): an auto command whose target converts to a non-positive
int is silently ignored (no state change, no exception); but a target that
`int()` cannot convert raises, and the exception escapes `handle_cmd`. -/
theorem c5_auto_target (cfg : Cfg) (s : LoopState) (t : Nat) (c : Cmd) :
    (∀ n : Int, c.auto = true → c.reset = false → c.calib = false →
        pyIntOfTVal (orZero c.target) = .ok n → n ≤ 0 →
        handle_cmd cfg s t (some c) = .ok (s, [])) ∧
    (∀ e : String, c.auto = true →
        pyIntOfTVal (orZero c.target) = .error e →
        handle_cmd cfg s t (some c) = .error e) := by
  constructor
  · intro n ha hr hc hok hle
    have hnlt : ¬(0 : Int) < n := by omega
    simp [handle_cmd, ha, hr, hc, hok, hnlt]
  · intro e ha herr
    simp [handle_cmd, ha, herr]

/-- C5 witness: both parts of the amended theorem at concrete inputs — an
auto command with target `-3` is a no-op, and one with target `"abc"`
raises. -/
theorem c5_witness :
    (({ auto := true, target := TVal.vint (-3) } : Cmd).auto = true ∧
      pyIntOfTVal (orZero (TVal.vint (-3))) = .ok (-3) ∧ (-3 : Int) ≤ 0 ∧
      handle_cmd wCfg wInit 7 (some { auto := true, target := TVal.vint (-3) }) =
        .ok (wInit, [])) ∧
    (pyIntOfTVal (orZero (TVal.vstr "abc")) = .error "ValueError" ∧
      handle_cmd wCfg wInit 7 (some { auto := true, target := TVal.vstr "abc" }) =
        .error "ValueError") :=
  ⟨⟨rfl, rfl, by decide,
    (c5_auto_target wCfg wInit 7 { auto := true, target := TVal.vint (-3) }).1
      (-3) rfl rfl rfl rfl (by decide)⟩,
   ⟨rfl,
    (c5_auto_target wCfg wInit 7 { auto := true, target := TVal.vstr "abc" }).2
      "ValueError" rfl rfl⟩⟩

/-! ## C9: output latch write deduplication -/

/-- C9 counterexample: when the cached state already equals the requested
value, calling `set` twice in a row issues zero physical writes, not exactly
one. -/
theorem c9_counterexample :
    (OutputsLatch.set 0 [(((0 : Int), (1 : Int)), true)]
      (ChanSpec.ofInt 1) true).2.length = 0 ∧
    (OutputsLatch.set 0
      (OutputsLatch.set 0 [(((0 : Int), (1 : Int)), true)]
        (ChanSpec.ofInt 1) true).1
      (ChanSpec.ofInt 1) true).2.length = 0 := by
  exact ⟨rfl, rfl⟩

/-- C9 (amended): two consecutive `set` calls with the same value issue at
most one physical write — exactly one when the cache initially differs from
(or does not hold) the requested value, and zero when it already equals it;
the second call is always a write-free no-op. -/
theorem c9_set_dedup (ds : Int) (st : Latch) (spec : ChanSpec) (v : Bool) :
    (OutputsLatch.set ds (OutputsLatch.set ds st spec v).1 spec v).2 = [] ∧
    (OutputsLatch.set ds (OutputsLatch.set ds st spec v).1 spec v).1 =
      (OutputsLatch.set ds st spec v).1 ∧
    (OutputsLatch.set ds st spec v).2.length ≤ 1 ∧
    (alookup st (stack_ch spec ds) = some v →
      OutputsLatch.set ds st spec v = (st, [])) ∧
    (alookup st (stack_ch spec ds) ≠ some v →
      (OutputsLatch.set ds st spec v).2 = [(stack_ch spec ds, v)]) := by
  have hcached : ∀ st' : Latch, alookup st' (stack_ch spec ds) = some v →
      OutputsLatch.set ds st' spec v = (st', []) := by
    intro st' h'
    unfold OutputsLatch.set
    rw [if_pos h']
  by_cases h : alookup st (stack_ch spec ds) = some v
  · have h1 := hcached st h
    have h1fst : (OutputsLatch.set ds st spec v).1 = st := by rw [h1]
    refine ⟨?_, ?_, ?_, fun _ => h1, fun hne => absurd h hne⟩
    · rw [h1fst, hcached st h]
    · rw [h1fst]
      exact h1fst
    · rw [h1]
      simp
  · have h1 : OutputsLatch.set ds st spec v =
        (aupsert st (stack_ch spec ds) v, [(stack_ch spec ds, v)]) := by
      unfold OutputsLatch.set
      rw [if_neg h]
    have h1fst : (OutputsLatch.set ds st spec v).1 =
        aupsert st (stack_ch spec ds) v := by rw [h1]
    have h2 := hcached (aupsert st (stack_ch spec ds) v)
      (alookup_aupsert_self st (stack_ch spec ds) v)
    refine ⟨?_, ?_, ?_, fun hc => absurd hc h, fun _ => by rw [h1]⟩
    · rw [h1fst, h2]
    · rw [h1fst, h2]
    · rw [h1]
      simp

/-- C9 witness: the amended theorem applied to the empty cache, where the
first call issues exactly the one physical write. -/
theorem c9_witness :
    alookup ([] : Latch) (stack_ch (ChanSpec.ofInt 1) 0) ≠ some true ∧
    (OutputsLatch.set 0 [] (ChanSpec.ofInt 1) true).2 =
      [(stack_ch (ChanSpec.ofInt 1) 0, true)] :=
  ⟨by decide, (c9_set_dedup 0 [] (ChanSpec.ofInt 1) true).2.2.2.2 (by decide)⟩

/-! ## C7: PICK_IN target-satisfied priority -/

theorem pulseFire_fired (cfg : Cfg) (s : LoopState) (t : Nat) (name : String)
    (d : Nat) (h : (alookup cfg.out_map name).isSome = true) :
    (pulseFire cfg s t name d).2 = [name] := by
  unfold pulseFire
  cases hx : alookup cfg.out_map name with
  | none => rw [hx] at h; exact absurd h (by simp)
  | some sp => simp [hx]

theorem edge_obj_decision (cfg : Cfg) (s s' : LoopState) (v t : Nat)
    (h1 : s'.obj_last = s.obj_last)
    (h2 : s'.obj_last_edge_ms = s.obj_last_edge_ms) :
    (edge_obj cfg s' v t).2 = (edge_obj cfg s v t).2 := by
  by_cases hc : v = 1 ∧ s.obj_last = 0 ∧ t - s.obj_last_edge_ms ≥ cfg.debounce_obj
  · rw [edge_obj_pos cfg s v t hc,
      edge_obj_pos cfg s' v t (by rw [h1, h2]; exact hc)]
  · rw [edge_obj_neg cfg s v t hc,
      edge_obj_neg cfg s' v t (by rw [h1, h2]; exact hc)]

theorem tickRest_normal (cfg : Cfg) (s : LoopState) (i : TickIn)
    (rm : List FsOp) (fired0 : List String)
    (hrf : i.readFail = false)
    (herr : ¬(if (alookup cfg.in_map "r_error").isSome then i.err_sig else 0) = 1) :
    tickRest cfg s i rm fired0 =
      ((stateStep cfg s i).1,
       ⟨rm ++ (stateStep cfg s i).2.2, fired0 ++ (stateStep cfg s i).2.1⟩) := by
  unfold tickRest
  rw [hrf]
  simp only [Bool.false_eq_true, if_false]
  rw [if_neg herr]

theorem stateStep_pickin_edge (cfg : Cfg) (s : LoopState) (i : TickIn)
    (hmode : s.mode = Mode.PICK_IN)
    (hE : i.obj_sig = 1 ∧ s.obj_last = 0 ∧
      i.t - s.obj_last_edge_ms ≥ cfg.debounce_obj) :
    stateStep cfg s i =
      pickBody cfg
        { s with obj_last_edge_ms := i.t, obj_last := i.obj_sig,
                 batch_count := s.batch_count + 1,
                 total_done := s.total_done + 1 }
        i (save_count (s.total_done + 1) i.t) := by
  obtain ⟨mo, td, bc, tn, ts, ol, oe, hbm, pu, re⟩ := s
  dsimp only at hmode
  subst hmode
  unfold stateStep
  dsimp only
  rw [edge_obj_pos cfg ⟨Mode.PICK_IN, td, bc, tn, ts, ol, oe, hbm, pu, re⟩
    i.obj_sig i.t hE]
  simp

theorem stateStep_pickin_noedge (cfg : Cfg) (s : LoopState) (i : TickIn)
    (hmode : s.mode = Mode.PICK_IN)
    (hE : ¬(i.obj_sig = 1 ∧ s.obj_last = 0 ∧
      i.t - s.obj_last_edge_ms ≥ cfg.debounce_obj)) :
    stateStep cfg s i =
      pickBody cfg { s with obj_last := i.obj_sig } i [] := by
  obtain ⟨mo, td, bc, tn, ts, ol, oe, hbm, pu, re⟩ := s
  dsimp only at hmode
  subst hmode
  unfold stateStep
  dsimp only
  rw [edge_obj_neg cfg ⟨Mode.PICK_IN, td, bc, tn, ts, ol, oe, hbm, pu, re⟩
    i.obj_sig i.t hE]
  simp

theorem pickBody_done (cfg : Cfg) (s : LoopState) (i : TickIn)
    (countOps : List FsOp)
    (hck : (alookup cfg.out_map "count_ok").isSome = true)
    (hov : (alookup cfg.out_map "over_signal").isSome = true)
    (htot : s.total_done ≥ s.target_n) :
    (s.batch_count = 0 →
      (pickBody cfg s i countOps).1.mode = Mode.IDLE ∧
      (pickBody cfg s i countOps).2.1 = ["count_ok"]) ∧
    (s.batch_count ≠ 0 →
      (pickBody cfg s i countOps).1.mode = Mode.MARKING ∧
      (pickBody cfg s i countOps).2.1 = ["over_signal"]) := by
  unfold pickBody
  rw [if_pos htot]
  constructor
  · intro h0
    rw [if_pos h0]
    exact ⟨rfl, pulseFire_fired cfg s i.t "count_ok" cfg.pulse_ms hck⟩
  · intro hne
    rw [if_neg hne]
    exact ⟨rfl, pulseFire_fired cfg s i.t "over_signal" cfg.pulse_ms hov⟩

/-- C7: in PICK_IN, when `total_done ≥ target_n` after the object-edge step,
the controller finishes: with no open batch it pulses `count_ok` and goes to
IDLE, otherwise it pulses `over_signal` and goes to MARKING; the batch-full
check and the ready/continue step are pre-empted (the fired handshake list is
exactly the one pulse, so at most one of the three steps fires). -/
theorem c7_target_priority (cfg : Cfg) (s : LoopState) (i : TickIn)
    (p : LoopState × TickOut)
    (h : tick cfg s i = .ok p)
    (hmode : s.mode = Mode.PICK_IN)
    (hcmd : i.cmdFile = none)
    (hrf : i.readFail = false)
    (herr : i.err_sig = 0)
    (hck : (alookup cfg.out_map "count_ok").isSome = true)
    (hov : (alookup cfg.out_map "over_signal").isSome = true)
    (htot : s.target_n ≤ s.total_done +
      (if (edge_obj cfg s i.obj_sig i.t).2 then 1 else 0)) :
    (handshakeFired p.2.fired).length ≤ 1 ∧
    (s.batch_count + (if (edge_obj cfg s i.obj_sig i.t).2 then 1 else 0) = 0 →
      p.1.mode = Mode.IDLE ∧ p.2.fired = ["count_ok"]) ∧
    (s.batch_count + (if (edge_obj cfg s i.obj_sig i.t).2 then 1 else 0) ≠ 0 →
      p.1.mode = Mode.MARKING ∧ p.2.fired = ["over_signal"]) := by
  have hb : benignCmd i.cmdFile = true := by rw [hcmd]; rfl
  rw [tick_benign cfg s i hb] at h
  injection h with h'
  subst h'
  obtain ⟨hm2, ht2, hb2, htg2, _, hol2, hoe2⟩ := tickPre_counters cfg s i.t
  have herr' : ¬(if (alookup cfg.in_map "r_error").isSome then i.err_sig
      else 0) = 1 := by
    by_cases hc : (alookup cfg.in_map "r_error").isSome <;> simp [hc, herr]
  rw [hcmd]
  rw [tickRest_normal cfg (tickPre cfg s i.t) i (read_cmd none).2.2 [] hrf herr']
  simp only [List.nil_append]
  by_cases hEs : i.obj_sig = 1 ∧ s.obj_last = 0 ∧
      i.t - s.obj_last_edge_ms ≥ cfg.debounce_obj
  · have hE2 : i.obj_sig = 1 ∧ (tickPre cfg s i.t).obj_last = 0 ∧
        i.t - (tickPre cfg s i.t).obj_last_edge_ms ≥ cfg.debounce_obj := by
      rw [hol2, hoe2]; exact hEs
    have hδ : (edge_obj cfg s i.obj_sig i.t).2 = true := by
      rw [edge_obj_pos cfg s i.obj_sig i.t hEs]
    rw [stateStep_pickin_edge cfg (tickPre cfg s i.t) i (hm2.trans hmode) hE2]
    simp only [hδ, eq_self_iff_true, if_true, ite_true]
    rw [hδ] at htot
    simp only [eq_self_iff_true, if_true, ite_true] at htot
    set S : LoopState :=
      { tickPre cfg s i.t with
          obj_last_edge_ms := i.t
          obj_last := i.obj_sig
          batch_count := (tickPre cfg s i.t).batch_count + 1
          total_done := (tickPre cfg s i.t).total_done + 1 } with hS
    have hSb : S.batch_count = s.batch_count + 1 := by
      rw [hS]
      simp only []
      rw [hb2]
    have hSt : S.total_done = s.total_done + 1 := by
      rw [hS]
      simp only []
      rw [ht2]
    have hStg : S.target_n = s.target_n := by
      rw [hS]
      simp only []
      rw [htg2]
    have hmet := pickBody_done cfg S i
      (save_count ((tickPre cfg s i.t).total_done + 1) i.t) hck hov
      (by rw [ge_iff_le, hSt, hStg]; exact htot)
    rw [hSb] at hmet
    refine ⟨?_, fun h0 => absurd h0 (Nat.succ_ne_zero _),
      fun _ => hmet.2 (Nat.succ_ne_zero _)⟩
    obtain ⟨_, hf⟩ := hmet.2 (Nat.succ_ne_zero _)
    rw [hf]
    decide
  · have hE2 : ¬(i.obj_sig = 1 ∧ (tickPre cfg s i.t).obj_last = 0 ∧
        i.t - (tickPre cfg s i.t).obj_last_edge_ms ≥ cfg.debounce_obj) := by
      rw [hol2, hoe2]; exact hEs
    have hδ : (edge_obj cfg s i.obj_sig i.t).2 = false := by
      rw [edge_obj_neg cfg s i.obj_sig i.t hEs]
    rw [stateStep_pickin_noedge cfg (tickPre cfg s i.t) i (hm2.trans hmode) hE2]
    simp only [hδ, Bool.false_eq_true, if_false, ite_false, Nat.add_zero]
    rw [hδ] at htot
    simp only [Bool.false_eq_true, if_false, ite_false, Nat.add_zero] at htot
    set S : LoopState := { tickPre cfg s i.t with obj_last := i.obj_sig }
      with hS
    have hSb : S.batch_count = s.batch_count := by
      rw [hS]
      simp only []
      rw [hb2]
    have hSt : S.total_done = s.total_done := by
      rw [hS]
      simp only []
      rw [ht2]
    have hStg : S.target_n = s.target_n := by
      rw [hS]
      simp only []
      rw [htg2]
    have hmet := pickBody_done cfg S i [] hck hov
      (by rw [ge_iff_le, hSt, hStg]; exact htot)
    rw [hSb] at hmet
    refine ⟨?_, fun h0 => hmet.1 h0, fun hne => hmet.2 hne⟩
    by_cases hbz : s.batch_count = 0
    · obtain ⟨_, hf⟩ := hmet.1 hbz
      rw [hf]
      decide
    · obtain ⟨_, hf⟩ := hmet.2 hbz
      rw [hf]
      decide

/-- C7 witness: a concrete PICK_IN state with the target met and no open
batch; the tick pulses `count_ok` and goes to IDLE. -/
theorem c7_witness :
    wPickDone.mode = Mode.PICK_IN ∧
    (wQuiet 1000).cmdFile = none ∧
    wPickDone.target_n ≤ wPickDone.total_done +
      (if (edge_obj wCfg wPickDone (wQuiet 1000).obj_sig (wQuiet 1000).t).2
       then 1 else 0) ∧
    modeOfPair (tick wCfg wPickDone (wQuiet 1000)) = some Mode.IDLE := by
  refine ⟨rfl, rfl, by decide, ?_⟩
  obtain ⟨p, hp⟩ : ∃ p, tick wCfg wPickDone (wQuiet 1000) = .ok p := ⟨_, rfl⟩
  rw [show modeOfPair (tick wCfg wPickDone (wQuiet 1000)) = some p.1.mode from by
    rw [hp]; rfl]
  have hc7 := c7_target_priority wCfg wPickDone (wQuiet 1000) p hp rfl rfl rfl
    rfl (by decide) (by decide) (by decide)
  rw [(hc7.2.1 (by decide)).1]

/-! ## C8: pulse scheduler timing -/

theorem alookup_mem {α β : Type} [DecidableEq α] :
    ∀ (l : List (α × β)) (n : α) (e : β), alookup l n = some e → (n, e) ∈ l := by
  intro l n e h
  induction l with
  | nil => exact absurd h (by simp [alookup])
  | cons p rest ih =>
    obtain ⟨a, b⟩ := p
    by_cases ha : a = n
    · subst ha
      simp [alookup] at h
      subst h
      exact List.mem_cons_self _ _
    · rw [alookup, if_neg ha] at h
      exact List.mem_cons_of_mem _ (ih h)

theorem alookup_eq_none {α β : Type} [DecidableEq α] :
    ∀ (l : List (α × β)) (n : α), n ∉ l.map Prod.fst → alookup l n = none := by
  intro l n h
  induction l with
  | nil => rfl
  | cons p rest ih =>
    obtain ⟨a, b⟩ := p
    rw [List.map_cons, List.mem_cons] at h
    push_neg at h
    rw [alookup, if_neg (by exact fun he => h.1 he.symm)]
    exact ih h.2

theorem alookup_nodup_mem {α β : Type} [DecidableEq α] :
    ∀ (l : List (α × β)) (n : α) (u : β), (n, u) ∈ l →
      (l.map Prod.fst).Nodup → alookup l n = some u := by
  intro l n u hm hnd
  induction l with
  | nil => exact absurd hm (by simp)
  | cons p rest ih =>
    obtain ⟨a, b⟩ := p
    rw [List.map_cons, List.nodup_cons] at hnd
    rcases List.mem_cons.mp hm with heq | hmem
    · cases heq
      simp [alookup]
    · have hne : a ≠ n := by
        intro he
        subst he
        exact hnd.1 (List.mem_map.mpr ⟨(a, u), hmem, rfl⟩)
      rw [alookup, if_neg hne]
      exact ih hmem hnd.2

theorem alookup_filter {α β : Type} [DecidableEq α] :
    ∀ (l : List (α × β)) (n : α) (e : β) (P : α × β → Bool),
      alookup l n = some e → P (n, e) = true →
      alookup (l.filter P) n = some e := by
  intro l n e P h hP
  induction l with
  | nil => exact absurd h (by simp [alookup])
  | cons p rest ih =>
    obtain ⟨a, b⟩ := p
    by_cases ha : a = n
    · subst ha
      simp [alookup] at h
      subst h
      rw [List.filter_cons, if_pos hP]
      simp [alookup]
    · rw [alookup, if_neg ha] at h
      rw [List.filter_cons]
      split
      · rw [alookup, if_neg ha]
        exact ih h
      · exact ih h

theorem alookup_filter_none {α β : Type} [DecidableEq α] :
    ∀ (l : List (α × β)) (n : α) (e : β) (P : α × β → Bool),
      alookup l n = some e → (l.map Prod.fst).Nodup → P (n, e) = false →
      alookup (l.filter P) n = none := by
  intro l n e P h hnd hP
  induction l with
  | nil => exact absurd h (by simp [alookup])
  | cons p rest ih =>
    obtain ⟨a, b⟩ := p
    rw [List.map_cons, List.nodup_cons] at hnd
    by_cases ha : a = n
    · subst ha
      simp [alookup] at h
      subst h
      rw [List.filter_cons, if_neg (by rw [hP]; exact Bool.false_ne_true)]
      apply alookup_eq_none
      intro hk
      obtain ⟨p, hpmem, hpfst⟩ := List.mem_map.mp hk
      exact hnd.1 (List.mem_map.mpr ⟨p, List.mem_of_mem_filter hpmem, hpfst⟩)
    · rw [alookup, if_neg ha] at h
      rw [List.filter_cons]
      split
      · rw [alookup, if_neg ha]
        exact ih h hnd.2
      · exact ih h hnd.2

theorem aupsert_keys_mem {α β : Type} [DecidableEq α] :
    ∀ (l : List (α × β)) (k x : α) (v : β),
      x ∈ (aupsert l k v).map Prod.fst → x ∈ l.map Prod.fst ∨ x = k := by
  intro l k x v h
  induction l with
  | nil => simpa [aupsert] using h
  | cons p rest ih =>
    obtain ⟨a, b⟩ := p
    by_cases ha : a = k
    · subst ha
      rw [aupsert, if_pos rfl] at h
      rw [List.map_cons, List.mem_cons] at h
      rcases h with h | h
      · exact Or.inr h
      · exact Or.inl (by rw [List.map_cons, List.mem_cons]; exact Or.inr h)
    · rw [aupsert, if_neg ha] at h
      rw [List.map_cons, List.mem_cons] at h
      rcases h with h | h
      · exact Or.inl (by simp [h])
      · rcases ih h with h' | h'
        · exact Or.inl (by simp; exact Or.inr (by simpa using h'))
        · exact Or.inr h'

theorem aupsert_keys_nodup {α β : Type} [DecidableEq α] :
    ∀ (l : List (α × β)) (k : α) (v : β),
      (l.map Prod.fst).Nodup → ((aupsert l k v).map Prod.fst).Nodup := by
  intro l k v h
  induction l with
  | nil => simp [aupsert]
  | cons p rest ih =>
    obtain ⟨a, b⟩ := p
    rw [List.map_cons, List.nodup_cons] at h
    by_cases ha : a = k
    · subst ha
      rw [aupsert, if_pos rfl]
      exact List.nodup_cons.mpr h
    · rw [aupsert, if_neg ha, List.map_cons, List.nodup_cons]
      refine ⟨?_, ih h.2⟩
      intro hmem
      rcases aupsert_keys_mem rest k a v hmem with h' | h'
      · exact h.1 h'
      · exact ha h'

theorem outW_eq_none (cfg : Cfg) (r : Latch) (name : String) (v : Bool)
    (hx : alookup cfg.out_map name = none) : outW cfg r name v = (r, []) := by
  unfold outW
  rw [hx]

theorem outW_eq_some (cfg : Cfg) (r : Latch) (name : String) (v : Bool)
    (sp : ChanSpec) (hx : alookup cfg.out_map name = some sp) :
    outW cfg r name v = OutputsLatch.set cfg.stack r sp v := by
  unfold outW
  rw [hx]

theorem set_eq_cached (ds : Int) (st : Latch) (spec : ChanSpec) (v : Bool)
    (hc : alookup st (stack_ch spec ds) = some v) :
    OutputsLatch.set ds st spec v = (st, []) := by
  unfold OutputsLatch.set
  rw [if_pos hc]

theorem set_eq_write (ds : Int) (st : Latch) (spec : ChanSpec) (v : Bool)
    (hc : ¬alookup st (stack_ch spec ds) = some v) :
    OutputsLatch.set ds st spec v =
      (aupsert st (stack_ch spec ds) v, [(stack_ch spec ds, v)]) := by
  unfold OutputsLatch.set
  rw [if_neg hc]

theorem outW_writes (cfg : Cfg) (r : Latch) (name : String) (v : Bool) :
    ∀ w ∈ (outW cfg r name v).2, outKey cfg name = some w.1 ∧ w.2 = v := by
  intro w hw
  cases hx : alookup cfg.out_map name with
  | none =>
    rw [outW_eq_none cfg r name v hx] at hw
    simp at hw
  | some sp =>
    rw [outW_eq_some cfg r name v sp hx] at hw
    by_cases hc : alookup r (stack_ch sp cfg.stack) = some v
    · rw [set_eq_cached _ _ _ _ hc] at hw
      simp at hw
    · rw [set_eq_write _ _ _ _ hc] at hw
      rw [List.mem_singleton] at hw
      subst hw
      exact ⟨by simp [outKey, hx], rfl⟩

theorem outW_lookup_other (cfg : Cfg) (r : Latch) (name : String) (v : Bool)
    (k : Key) (h : outKey cfg name ≠ some k) :
    alookup (outW cfg r name v).1 k = alookup r k := by
  cases hx : alookup cfg.out_map name with
  | none => rw [outW_eq_none cfg r name v hx]
  | some sp =>
    rw [outW_eq_some cfg r name v sp hx]
    by_cases hc : alookup r (stack_ch sp cfg.stack) = some v
    · rw [set_eq_cached _ _ _ _ hc]
    · rw [set_eq_write _ _ _ _ hc]
      apply alookup_aupsert_ne
      intro he
      exact h (by simp [outKey, hx, he])

theorem outW_sets_false (cfg : Cfg) (r : Latch) (name : String) (k : Key)
    (h : outKey cfg name = some k) :
    alookup (outW cfg r name false).1 k = some false := by
  cases hx : alookup cfg.out_map name with
  | none => rw [outKey, hx] at h; simp at h
  | some sp =>
    rw [outKey, hx] at h
    simp at h
    subst h
    rw [outW_eq_some cfg r name false sp hx]
    by_cases hc : alookup r (stack_ch sp cfg.stack) = some false
    · rw [set_eq_cached _ _ _ _ hc]
      exact hc
    · rw [set_eq_write _ _ _ _ hc]
      exact alookup_aupsert_self r _ false

theorem serviceFold_writes (cfg : Cfg) :
    ∀ (l : List (String × Nat)) (r : Latch) (acc : List (Key × Bool))
      (w : Key × Bool), w ∈ (l.foldl (serviceStepFn cfg) (r, acc)).2 →
      w ∈ acc ∨ ∃ p, p ∈ l ∧ outKey cfg p.1 = some w.1 ∧ w.2 = false := by
  intro l
  induction l with
  | nil => intro r acc w hw; exact Or.inl hw
  | cons h rest ih =>
    intro r acc w hw
    rw [List.foldl_cons] at hw
    rcases ih (serviceStepFn cfg (r, acc) h).1 (serviceStepFn cfg (r, acc) h).2
        w (by
          have : serviceStepFn cfg (r, acc) h =
            ((serviceStepFn cfg (r, acc) h).1, (serviceStepFn cfg (r, acc) h).2) := rfl
          rw [← this]; exact hw) with hacc | ⟨p, hp, hpk⟩
    · unfold serviceStepFn at hacc
      rcases List.mem_append.mp hacc with h1 | h2
      · exact Or.inl h1
      · obtain ⟨hk, hv⟩ := outW_writes cfg r h.1 false w h2
        exact Or.inr ⟨h, List.mem_cons_self _ _, hk, hv⟩
    · exact Or.inr ⟨p, List.mem_cons_of_mem _ hp, hpk⟩

theorem serviceFold_lookup_other (cfg : Cfg) (k : Key) :
    ∀ (l : List (String × Nat)) (r : Latch) (acc : List (Key × Bool)),
      (∀ p ∈ l, outKey cfg p.1 ≠ some k) →
      alookup (l.foldl (serviceStepFn cfg) (r, acc)).1 k = alookup r k := by
  intro l
  induction l with
  | nil => intro r acc _; rfl
  | cons h rest ih =>
    intro r acc hl
    rw [List.foldl_cons]
    rw [ih _ _ (fun p hp => hl p (List.mem_cons_of_mem _ hp))]
    exact outW_lookup_other cfg r h.1 false k (hl h (List.mem_cons_self _ _))

theorem serviceFold_low (cfg : Cfg) (k : Key) :
    ∀ (l : List (String × Nat)) (r : Latch) (acc : List (Key × Bool)),
      (∃ p ∈ l, outKey cfg p.1 = some k) →
      alookup (l.foldl (serviceStepFn cfg) (r, acc)).1 k = some false := by
  intro l
  induction l with
  | nil => intro r acc h; exact absurd h (by simp)
  | cons h rest ih =>
    intro r acc hex
    rw [List.foldl_cons]
    by_cases hr : ∃ p ∈ rest, outKey cfg p.1 = some k
    · exact ih _ _ hr
    · obtain ⟨p, hp, hpk⟩ := hex
      have hph : p = h := by
        rcases List.mem_cons.mp hp with h' | h'
        · exact h'
        · exact absurd ⟨p, h', hpk⟩ hr
      subst hph
      push_neg at hr
      rw [serviceFold_lookup_other cfg k rest _ _ hr]
      exact outW_sets_false cfg r p.1 k hpk

theorem pulseFire_pu (cfg : Cfg) (s : LoopState) (t : Nat) (n : String)
    (d : Nat) (h : (alookup cfg.out_map n).isSome = true) :
    (pulseFire cfg s t n d).1.pulse_until = aupsert s.pulse_until n (t + d) := by
  unfold pulseFire
  cases hx : alookup cfg.out_map n with
  | none => rw [hx] at h; simp at h
  | some sp => simp [hx]

theorem service_pu (cfg : Cfg) (s : LoopState) (t : Nat) :
    (service_pulses cfg s t).1.pulse_until =
      s.pulse_until.filter (fun p => !decide (t ≥ p.2)) := rfl

theorem service_rel (cfg : Cfg) (s : LoopState) (t : Nat) :
    (service_pulses cfg s t).1.rel =
      ((s.pulse_until.filter (fun p => decide (t ≥ p.2))).foldl
        (serviceStepFn cfg) (s.rel, [])).1 := rfl

theorem service_writes (cfg : Cfg) (s : LoopState) (t : Nat) :
    (service_pulses cfg s t).2 =
      ((s.pulse_until.filter (fun p => decide (t ≥ p.2))).foldl
        (serviceStepFn cfg) (s.rel, [])).2 := rfl

/-- C8: a fired pulse is serviced low no earlier than its nominal duration
and, for service calls no more than one tick-period apart, no later than one
tick-period after the duration elapses; re-firing before expiry overwrites
the pending expiry (one entry per signal, never stacked). -/
theorem c8_pulse_timing :
    (∀ (cfg : Cfg) (s : LoopState) (t₁ t₂ d₁ d₂ : Nat) (n : String),
        (alookup cfg.out_map n).isSome = true →
        alookup (pulseFire cfg (pulseFire cfg s t₁ n d₁).1 t₂ n d₂).1.pulse_until
          n = some (t₂ + d₂) ∧
        ((s.pulse_until.map Prod.fst).Nodup →
          (((pulseFire cfg (pulseFire cfg s t₁ n d₁).1 t₂ n d₂).1.pulse_until.map
            Prod.fst).Nodup))) ∧
    (∀ (cfg : Cfg) (s : LoopState) (t e : Nat) (n : String),
        alookup s.pulse_until n = some e → t < e →
        alookup (service_pulses cfg s t).1.pulse_until n = some e ∧
        (∀ (k : Key) (b : Bool), outKey cfg n = some k →
          (s.pulse_until.map Prod.fst).Nodup →
          (∀ m u, (m, u) ∈ s.pulse_until → m ≠ n → outKey cfg m ≠ some k) →
          (k, b) ∉ (service_pulses cfg s t).2)) ∧
    (∀ (cfg : Cfg) (s : LoopState) (tp t e P : Nat) (n : String) (k : Key),
        alookup s.pulse_until n = some e →
        (s.pulse_until.map Prod.fst).Nodup →
        outKey cfg n = some k →
        tp < e → e ≤ t → t ≤ tp + P →
        alookup (service_pulses cfg (service_pulses cfg s tp).1 t).1.pulse_until
          n = none ∧
        alookup (service_pulses cfg (service_pulses cfg s tp).1 t).1.rel k =
          some false ∧
        t < e + P) := by
  refine ⟨?_, ?_, ?_⟩
  · intro cfg s t₁ t₂ d₁ d₂ n hn
    have h1 := pulseFire_pu cfg s t₁ n d₁ hn
    have h2 := pulseFire_pu cfg (pulseFire cfg s t₁ n d₁).1 t₂ n d₂ hn
    rw [h2, h1]
    exact ⟨alookup_aupsert_self _ n (t₂ + d₂),
      fun hnd => aupsert_keys_nodup _ n (t₂ + d₂)
        (aupsert_keys_nodup _ n (t₁ + d₁) hnd)⟩
  · intro cfg s t e n hl hlt
    constructor
    · rw [service_pu]
      exact alookup_filter s.pulse_until n e _ hl (by simp; omega)
    · intro k b hk hnd hdist hmem
      rw [service_writes] at hmem
      rcases serviceFold_writes cfg _ s.rel [] (k, b) hmem with hacc | ⟨p, hp, hpk, _⟩
      · exact absurd hacc (by simp)
      · obtain ⟨hpm, hpe⟩ := List.mem_filter.mp hp
        by_cases hpn : p.1 = n
        · have hsome : alookup s.pulse_until p.1 = some p.2 :=
            alookup_nodup_mem s.pulse_until p.1 p.2 (by
              rw [show (p.1, p.2) = p from rfl]; exact hpm) hnd
          rw [hpn, hl] at hsome
          have he : p.2 = e := by injection hsome.symm
          rw [he] at hpe
          simp at hpe
          omega
        · exact hdist p.1 p.2 (by rw [show (p.1, p.2) = p from rfl]; exact hpm)
            hpn (by rw [hpk])
  · intro cfg s tp t e P n k hl hnd hk hlt hle htp
    have hkeep : alookup (service_pulses cfg s tp).1.pulse_until n = some e := by
      rw [service_pu]
      exact alookup_filter s.pulse_until n e _ hl (by simp; omega)
    have hnd1 : ((service_pulses cfg s tp).1.pulse_until.map Prod.fst).Nodup := by
      rw [service_pu]
      exact ((List.filter_sublist s.pulse_until).map Prod.fst).nodup hnd
    refine ⟨?_, ?_, by omega⟩
    · rw [service_pu]
      exact alookup_filter_none _ n e _ hkeep hnd1 (by simp; omega)
    · rw [service_rel]
      apply serviceFold_low
      refine ⟨(n, e), ?_, hk⟩
      rw [List.mem_filter]
      exact ⟨alookup_mem _ n e hkeep, by simp; omega⟩

/-- C8 witness: a pending 150 ms pulse on `over_signal` due at 500 ms,
serviced at 499 ms (kept) and then at 510 ms (driven low within one 20 ms
tick of its expiry); plus a concrete double fire. -/
theorem c8_witness :
    ((alookup wCfg.out_map "over_signal").isSome = true ∧
      alookup (pulseFire wCfg (pulseFire wCfg wInit 100 "over_signal" 150).1
        300 "over_signal" 150).1.pulse_until "over_signal" = some 450) ∧
    (alookup wPulseState.pulse_until "over_signal" = some 500 ∧ (499 : Nat) < 500 ∧
      alookup (service_pulses wCfg wPulseState 499).1.pulse_until "over_signal" =
        some 500) ∧
    (alookup (service_pulses wCfg (service_pulses wCfg wPulseState 499).1
        510).1.pulse_until "over_signal" = none ∧
      alookup (service_pulses wCfg (service_pulses wCfg wPulseState 499).1
        510).1.rel ((0 : Int), (3 : Int)) = some false ∧
      (510 : Nat) < 500 + 20) :=
  ⟨⟨by decide,
    (c8_pulse_timing.1 wCfg wInit 100 300 150 150 "over_signal" (by decide)).1⟩,
   ⟨by decide, by decide,
    (c8_pulse_timing.2.1 wCfg wPulseState 499 500 "over_signal" (by decide)
      (by decide)).1⟩,
   (by
    have h := c8_pulse_timing.2.2 wCfg wPulseState 499 510 500 20 "over_signal"
      ((0 : Int), (3 : Int)) (by decide) (by decide) (by decide) (by decide)
      (by decide) (by decide)
    exact ⟨h.1, h.2.1, h.2.2⟩)⟩

/-! ## C6: status publication -/

theorem tick_ok (cfg : Cfg) (s : LoopState) (i : TickIn)
    (q : LoopState × List String)
    (hh : handle_cmd cfg (tickPre cfg s i.t) i.t (read_cmd i.cmdFile).1 = .ok q) :
    tick cfg s i = .ok (tickRest cfg q.1 i (read_cmd i.cmdFile).2.2 q.2) := by
  unfold tick
  simp only [hh]

theorem tickRest_readfail (cfg : Cfg) (s : LoopState) (i : TickIn)
    (rm : List FsOp) (f0 : List String) (h : i.readFail = true) :
    tickRest cfg s i rm f0 =
      (s, ⟨rm ++ save_runtime s "IO read error" i.t, f0⟩) := by
  unfold tickRest
  rw [h]
  simp

theorem tickRest_errstop (cfg : Cfg) (s : LoopState) (i : TickIn)
    (rm : List FsOp) (f0 : List String) (h1 : i.readFail = false)
    (h2 : (if (alookup cfg.in_map "r_error").isSome then i.err_sig else 0) = 1) :
    tickRest cfg s i rm f0 =
      ({ safe_outputs cfg s with mode := Mode.ERROR },
       ⟨rm ++ save_runtime { safe_outputs cfg s with mode := Mode.ERROR }
          "Robot error" i.t, f0⟩) := by
  unfold tickRest
  rw [h1]
  simp only [Bool.false_eq_true, if_false]
  rw [if_pos h2]

theorem rm_transparent (f : Option CmdContent) (ops : List FsOp) :
    wfStatusOps ((read_cmd f).2.2 ++ ops) = wfStatusOps ops ∧
    statusCount ((read_cmd f).2.2 ++ ops) = statusCount ops := by
  match f with
  | none => exact ⟨rfl, rfl⟩
  | some .invalid => exact ⟨rfl, rfl⟩
  | some (.valid c) => exact ⟨rfl, rfl⟩

theorem save_pair_status (r : StatusRec) :
    wfStatusOps (save_state r) = true ∧ statusCount (save_state r) = 1 :=
  ⟨rfl, rfl⟩

theorem count_pair_transparent (c ts : Nat) (rest : List FsOp) :
    wfStatusOps (save_count c ts ++ rest) = wfStatusOps rest ∧
    statusCount (save_count c ts ++ rest) = statusCount rest :=
  ⟨rfl, rfl⟩

theorem pickBody_status (cfg : Cfg) (S : LoopState) (i : TickIn)
    (countOps : List FsOp)
    (hco : ∀ rest, wfStatusOps (countOps ++ rest) = wfStatusOps rest ∧
      statusCount (countOps ++ rest) = statusCount rest) :
    wfStatusOps (pickBody cfg S i countOps).2.2 = true ∧
    statusCount (pickBody cfg S i countOps).2.2 = 1 := by
  unfold pickBody
  split
  · split
    · exact ⟨by rw [(hco _).1]; exact (save_pair_status _).1,
        by rw [(hco _).2]; exact (save_pair_status _).2⟩
    · exact ⟨by rw [(hco _).1]; exact (save_pair_status _).1,
        by rw [(hco _).2]; exact (save_pair_status _).2⟩
  · split
    · exact ⟨by rw [(hco _).1]; exact (save_pair_status _).1,
        by rw [(hco _).2]; exact (save_pair_status _).2⟩
    · exact ⟨by rw [(hco _).1]; exact (save_pair_status _).1,
        by rw [(hco _).2]; exact (save_pair_status _).2⟩

theorem stateStep_status (cfg : Cfg) (s : LoopState) (i : TickIn) :
    wfStatusOps (stateStep cfg s i).2.2 = true ∧
    (statusCount (stateStep cfg s i).2.2 = 1 ∨
      (statusCount (stateStep cfg s i).2.2 = 0 ∧
        (stateStep cfg s i).1.mode = Mode.AFTER_MARK ∧ i.next_sig ≠ 1)) := by
  obtain ⟨mo, td, bc, tn, ts, ol, oe, hbm, pu, re⟩ := s
  cases mo with
  | IDLE => exact ⟨rfl, Or.inl rfl⟩
  | STARTING => exact ⟨rfl, Or.inl rfl⟩
  | PICK_IN =>
    by_cases hE : i.obj_sig = 1 ∧ ol = 0 ∧ i.t - oe ≥ cfg.debounce_obj
    · rw [stateStep_pickin_edge cfg ⟨Mode.PICK_IN, td, bc, tn, ts, ol, oe, hbm, pu, re⟩
        i rfl hE]
      exact ⟨(pickBody_status cfg _ i _
          (fun rest => count_pair_transparent (td + 1) i.t rest)).1,
        Or.inl (pickBody_status cfg _ i _
          (fun rest => count_pair_transparent (td + 1) i.t rest)).2⟩
    · rw [stateStep_pickin_noedge cfg
        ⟨Mode.PICK_IN, td, bc, tn, ts, ol, oe, hbm, pu, re⟩ i rfl hE]
      exact ⟨(pickBody_status cfg _ i [] (fun rest => ⟨rfl, rfl⟩)).1,
        Or.inl (pickBody_status cfg _ i [] (fun rest => ⟨rfl, rfl⟩)).2⟩
  | MARKING => exact ⟨rfl, Or.inl rfl⟩
  | AFTER_MARK =>
    by_cases hn : i.next_sig = 1
    · dsimp only [stateStep]
      rw [if_pos hn]
      by_cases htt : td ≥ tn
      · rw [if_pos htt]
        exact ⟨rfl, Or.inl rfl⟩
      · rw [if_neg htt]
        exact ⟨rfl, Or.inl rfl⟩
    · dsimp only [stateStep]
      rw [if_neg hn]
      exact ⟨rfl, Or.inr ⟨rfl, rfl, hn⟩⟩
  | ERROR => exact ⟨rfl, Or.inl rfl⟩

/-- C6 counterexample: after reaching AFTER_MARK with the robot still busy
(`next_signal` low), a quiet tick performs no file operation at all — the
status record is not written on every tick. -/
theorem c6_counterexample :
    modeOf (ticks wCfg wInit wRunTrace) = some Mode.AFTER_MARK ∧
    (thenTick wCfg wInit wRunTrace (wQuiet 1500)).map (fun p => p.2.fsOps) =
      some [] ∧
    (thenTick wCfg wInit wRunTrace (wQuiet 1500)).map (fun p => p.1.mode) =
      some Mode.AFTER_MARK ∧
    (wQuiet 1500).next_sig = 0 ∧ (wQuiet 1500).readFail = false := by
  exact ⟨rfl, rfl, rfl, rfl, rfl⟩

/-- C6 (amended): every tick that completes publishes exactly one status
record, except ticks spent waiting in AFTER_MARK with `next_signal` low,
which publish none; and every publication is atomic — the operation trace
only ever touches the status file by writing the temp file in full and then
renaming it over the status file. -/
theorem c6_status_atomic (cfg : Cfg) (s : LoopState) (i : TickIn)
    (p : LoopState × TickOut) (h : tick cfg s i = .ok p) :
    wfStatusOps p.2.fsOps = true ∧
    (statusCount p.2.fsOps = 1 ∨
      (statusCount p.2.fsOps = 0 ∧ p.1.mode = Mode.AFTER_MARK ∧
        i.next_sig ≠ 1)) := by
  cases hh : handle_cmd cfg (tickPre cfg s i.t) i.t (read_cmd i.cmdFile).1 with
  | error e =>
    rw [tick, hh] at h
    exact absurd h (by simp)
  | ok q =>
    rw [tick_ok cfg s i q hh] at h
    injection h with h'
    subst h'
    cases hrf : i.readFail with
    | true =>
      rw [tickRest_readfail cfg q.1 i _ q.2 hrf]
      refine ⟨?_, Or.inl ?_⟩
      · rw [(rm_transparent i.cmdFile _).1]
        exact (save_pair_status _).1
      · rw [(rm_transparent i.cmdFile _).2]
        exact (save_pair_status _).2
    | false =>
      by_cases herr :
          (if (alookup cfg.in_map "r_error").isSome then i.err_sig else 0) = 1
      · rw [tickRest_errstop cfg q.1 i _ q.2 hrf herr]
        refine ⟨?_, Or.inl ?_⟩
        · rw [(rm_transparent i.cmdFile _).1]
          exact (save_pair_status _).1
        · rw [(rm_transparent i.cmdFile _).2]
          exact (save_pair_status _).2
      · rw [tickRest_normal cfg q.1 i _ q.2 hrf herr]
        obtain ⟨hwf, hcount⟩ := stateStep_status cfg q.1 i
        refine ⟨?_, ?_⟩
        · rw [(rm_transparent i.cmdFile _).1]
          exact hwf
        · rcases hcount with h1 | ⟨h0, hmode, hnext⟩
          · exact Or.inl (by rw [(rm_transparent i.cmdFile _).2]; exact h1)
          · exact Or.inr ⟨by rw [(rm_transparent i.cmdFile _).2]; exact h0,
              hmode, hnext⟩

/-- C6 witness: the amended theorem applied to a concrete quiet IDLE tick,
which publishes exactly one status record. -/
theorem c6_witness :
    (thenTick wCfg wInit [] (wQuiet 600)).map
      (fun p => wfStatusOps p.2.fsOps) = some true ∧
    (thenTick wCfg wInit [] (wQuiet 600)).map
      (fun p => statusCount p.2.fsOps) = some 1 := by
  obtain ⟨p, hp⟩ : ∃ p, tick wCfg wInit (wQuiet 600) = .ok p := ⟨_, rfl⟩
  have h := c6_status_atomic wCfg wInit (wQuiet 600) p hp
  have hm1 : modeOfPair (tick wCfg wInit (wQuiet 600)) = some p.1.mode := by
    rw [hp]
    rfl
  have hmod : p.1.mode = Mode.IDLE := by
    have h2 := hm1.symm.trans
      (rfl : modeOfPair (tick wCfg wInit (wQuiet 600)) = some Mode.IDLE)
    injection h2
  rcases h.2 with h1 | ⟨_, hmode, _⟩
  · rw [show thenTick wCfg wInit [] (wQuiet 600) =
        (tick wCfg wInit (wQuiet 600)).toOption from rfl, hp]
    simp [Except.toOption, h.1, h1]
  · rw [hmod] at hmode
    exact absurd hmode (by decide)

/-! ## C3: counter invariants inside a run -/

theorem runInv_fields (cfg : Cfg) (s s' : LoopState)
    (h1 : s'.mode = s.mode) (h2 : s'.total_done = s.total_done)
    (h3 : s'.batch_count = s.batch_count) (h4 : s'.target_n = s.target_n)
    (hInv : RunInv cfg s) : RunInv cfg s' := by
  unfold RunInv at *
  rw [h1, h2, h3, h4]
  exact hInv

theorem safe_outputs_counters (cfg : Cfg) (s : LoopState) :
    (safe_outputs cfg s).mode = s.mode ∧
    (safe_outputs cfg s).total_done = s.total_done ∧
    (safe_outputs cfg s).batch_count = s.batch_count ∧
    (safe_outputs cfg s).target_n = s.target_n :=
  ⟨rfl, rfl, rfl, rfl⟩

theorem pickBody_counters (cfg : Cfg) (S : LoopState) (i : TickIn)
    (countOps : List FsOp) :
    (pickBody cfg S i countOps).1.total_done = S.total_done ∧
    (pickBody cfg S i countOps).1.batch_count = S.batch_count ∧
    (pickBody cfg S i countOps).1.target_n = S.target_n := by
  unfold pickBody
  obtain ⟨hm1, ht1, hb1, hg1, _, _, _⟩ :=
    pulseFire_counters cfg S i.t "count_ok" cfg.pulse_ms
  obtain ⟨hm2, ht2, hb2, hg2, _, _, _⟩ :=
    pulseFire_counters cfg S i.t "over_signal" cfg.pulse_ms
  obtain ⟨hm3, ht3, hb3, hg3, _, _, _⟩ :=
    pulseFire_counters cfg S i.t "continue_signal" cfg.pulse_ms
  split
  · split
    · exact ⟨ht1, hb1, hg1⟩
    · exact ⟨ht2, hb2, hg2⟩
  · split
    · exact ⟨ht2, hb2, hg2⟩
    · split
      · exact ⟨ht3, hb3, hg3⟩
      · exact ⟨rfl, rfl, rfl⟩

theorem pickBody_runInv (cfg : Cfg) (S : LoopState) (i : TickIn)
    (countOps : List FsOp) (_hbs : 0 < cfg.batch_size)
    (h_tot : S.total_done ≤ S.target_n) (h_b : S.batch_count ≤ cfg.batch_size)
    (h_pos : 0 < S.target_n) :
    RunInv cfg (pickBody cfg S i countOps).1 := by
  unfold pickBody
  obtain ⟨hm1, ht1, hb1, hg1, _, _, _⟩ :=
    pulseFire_counters cfg S i.t "count_ok" cfg.pulse_ms
  obtain ⟨hm2, ht2, hb2, hg2, _, _, _⟩ :=
    pulseFire_counters cfg S i.t "over_signal" cfg.pulse_ms
  obtain ⟨hm3, ht3, hb3, hg3, _, _, _⟩ :=
    pulseFire_counters cfg S i.t "continue_signal" cfg.pulse_ms
  by_cases h1 : S.total_done ≥ S.target_n
  · rw [if_pos h1]
    by_cases h2 : S.batch_count = 0
    · rw [if_pos h2]
      refine ⟨?_, ?_, ?_, ?_, ?_⟩
      · show (pulseFire cfg S i.t "count_ok" cfg.pulse_ms).1.total_done ≤
          (pulseFire cfg S i.t "count_ok" cfg.pulse_ms).1.target_n
        rw [ht1, hg1]
        exact h_tot
      · show (pulseFire cfg S i.t "count_ok" cfg.pulse_ms).1.batch_count ≤
          cfg.batch_size
        rw [hb1]
        exact h_b
      · show 0 < (pulseFire cfg S i.t "count_ok" cfg.pulse_ms).1.target_n
        rw [hg1]
        exact h_pos
      · intro hc
        rcases hc with hc | hc <;> exact absurd hc (by intro h'; cases h')
      · intro hc
        exact absurd hc (by intro h'; cases h')
    · rw [if_neg h2]
      refine ⟨?_, ?_, ?_, ?_, ?_⟩
      · show (pulseFire cfg S i.t "over_signal" cfg.pulse_ms).1.total_done ≤
          (pulseFire cfg S i.t "over_signal" cfg.pulse_ms).1.target_n
        rw [ht2, hg2]
        exact h_tot
      · show (pulseFire cfg S i.t "over_signal" cfg.pulse_ms).1.batch_count ≤
          cfg.batch_size
        rw [hb2]
        exact h_b
      · show 0 < (pulseFire cfg S i.t "over_signal" cfg.pulse_ms).1.target_n
        rw [hg2]
        exact h_pos
      · intro hc
        rcases hc with hc | hc <;> exact absurd hc (by intro h'; cases h')
      · intro hc
        exact absurd hc (by intro h'; cases h')
  · rw [if_neg h1]
    have h1' : S.total_done < S.target_n := Nat.lt_of_not_le h1
    by_cases h3 : S.batch_count ≥ cfg.batch_size
    · rw [if_pos h3]
      refine ⟨?_, ?_, ?_, ?_, ?_⟩
      · show (pulseFire cfg S i.t "over_signal" cfg.pulse_ms).1.total_done ≤
          (pulseFire cfg S i.t "over_signal" cfg.pulse_ms).1.target_n
        rw [ht2, hg2]
        exact h_tot
      · show (pulseFire cfg S i.t "over_signal" cfg.pulse_ms).1.batch_count ≤
          cfg.batch_size
        rw [hb2]
        exact h_b
      · show 0 < (pulseFire cfg S i.t "over_signal" cfg.pulse_ms).1.target_n
        rw [hg2]
        exact h_pos
      · intro hc
        rcases hc with hc | hc <;> exact absurd hc (by intro h'; cases h')
      · intro hc
        exact absurd hc (by intro h'; cases h')
    · rw [if_neg h3]
      have h3' : S.batch_count < cfg.batch_size := Nat.lt_of_not_le h3
      by_cases h4 : i.ready_sig = 1
      · rw [if_pos h4]
        refine ⟨?_, ?_, ?_, ?_, ?_⟩
        · rw [ht3, hg3]
          exact h_tot
        · rw [hb3]
          exact h_b
        · rw [hg3]
          exact h_pos
        · intro _
          rw [ht3, hg3]
          exact h1'
        · intro _
          rw [hb3]
          exact h3'
      · rw [if_neg h4]
        exact ⟨h_tot, h_b, h_pos, fun _ => h1', fun _ => h3'⟩

theorem edge_obj_counters (cfg : Cfg) (s : LoopState) (v t : Nat) :
    (edge_obj cfg s v t).1.mode = s.mode ∧
    (edge_obj cfg s v t).1.total_done = s.total_done ∧
    (edge_obj cfg s v t).1.batch_count = s.batch_count ∧
    (edge_obj cfg s v t).1.target_n = s.target_n := by
  unfold edge_obj
  split
  · exact ⟨rfl, rfl, rfl, rfl⟩
  · exact ⟨rfl, rfl, rfl, rfl⟩

theorem stateStep_runInv (cfg : Cfg) (s : LoopState) (i : TickIn)
    (hbs : 0 < cfg.batch_size) (hInv : RunInv cfg s)
    (hm : s.mode ≠ Mode.IDLE) : RunInv cfg (stateStep cfg s i).1 := by
  obtain ⟨h_tot, h_b, h_pos, h_strict, h_bstrict⟩ := hInv
  cases hmode : s.mode with
  | IDLE => exact absurd hmode hm
  | STARTING =>
    have hstep : stateStep cfg s i =
        ({ (pulseFire cfg s i.t "start_signal" cfg.pulse_ms).1 with
            batch_count := 0
            mode := Mode.PICK_IN },
         (pulseFire cfg s i.t "start_signal" cfg.pulse_ms).2,
         save_runtime { (pulseFire cfg s i.t "start_signal" cfg.pulse_ms).1 with
            batch_count := 0
            mode := Mode.PICK_IN } "" i.t) := by
      unfold stateStep
      rw [hmode]
    rw [hstep]
    obtain ⟨hm1, ht1, _, hg1, _, _, _⟩ :=
      pulseFire_counters cfg s i.t "start_signal" cfg.pulse_ms
    refine ⟨?_, ?_, ?_, ?_, ?_⟩
    · show (pulseFire cfg s i.t "start_signal" cfg.pulse_ms).1.total_done ≤
        (pulseFire cfg s i.t "start_signal" cfg.pulse_ms).1.target_n
      rw [ht1, hg1]
      exact h_tot
    · exact Nat.zero_le _
    · show 0 < (pulseFire cfg s i.t "start_signal" cfg.pulse_ms).1.target_n
      rw [hg1]
      exact h_pos
    · intro _
      show (pulseFire cfg s i.t "start_signal" cfg.pulse_ms).1.total_done <
        (pulseFire cfg s i.t "start_signal" cfg.pulse_ms).1.target_n
      rw [ht1, hg1]
      exact h_strict (Or.inr hmode)
    · intro _
      exact hbs
  | PICK_IN =>
    by_cases hE : i.obj_sig = 1 ∧ s.obj_last = 0 ∧
        i.t - s.obj_last_edge_ms ≥ cfg.debounce_obj
    · rw [stateStep_pickin_edge cfg s i hmode hE]
      apply pickBody_runInv cfg _ i _ hbs
      · show s.total_done + 1 ≤ s.target_n
        exact h_strict (Or.inl hmode)
      · show s.batch_count + 1 ≤ cfg.batch_size
        exact h_bstrict hmode
      · exact h_pos
    · rw [stateStep_pickin_noedge cfg s i hmode hE]
      apply pickBody_runInv cfg _ i _ hbs
      · exact h_tot
      · exact h_b
      · exact h_pos
  | MARKING =>
    have hstep : stateStep cfg s i =
        ({ s with mode := Mode.AFTER_MARK }, [],
         save_runtime { s with mode := Mode.AFTER_MARK } "" i.t) := by
      unfold stateStep
      rw [hmode]
    rw [hstep]
    refine ⟨h_tot, h_b, h_pos, ?_, ?_⟩
    · intro hc
      rcases hc with hc | hc <;> exact absurd hc (by intro h'; cases h')
    · intro hc
      exact absurd hc (by intro h'; cases h')
  | AFTER_MARK =>
    have hstep : stateStep cfg s i =
        (if i.next_sig = 1 then
          if s.total_done ≥ s.target_n then
            ({ (pulseFire cfg s i.t "count_ok" cfg.pulse_ms).1 with
                mode := Mode.IDLE
                batch_count := 0 },
             (pulseFire cfg s i.t "count_ok" cfg.pulse_ms).2,
             save_runtime { (pulseFire cfg s i.t "count_ok" cfg.pulse_ms).1 with
                mode := Mode.IDLE
                batch_count := 0 } "" i.t)
          else
            ({ s with batch_count := 0, mode := Mode.PICK_IN }, [],
             save_runtime { s with batch_count := 0, mode := Mode.PICK_IN } "" i.t)
        else (s, [], [])) := by
      unfold stateStep
      rw [hmode]
    rw [hstep]
    by_cases hn : i.next_sig = 1
    · rw [if_pos hn]
      by_cases htt : s.total_done ≥ s.target_n
      · rw [if_pos htt]
        obtain ⟨hm1, ht1, _, hg1, _, _, _⟩ :=
          pulseFire_counters cfg s i.t "count_ok" cfg.pulse_ms
        refine ⟨?_, Nat.zero_le _, ?_, ?_, ?_⟩
        · show (pulseFire cfg s i.t "count_ok" cfg.pulse_ms).1.total_done ≤
            (pulseFire cfg s i.t "count_ok" cfg.pulse_ms).1.target_n
          rw [ht1, hg1]
          exact h_tot
        · show 0 < (pulseFire cfg s i.t "count_ok" cfg.pulse_ms).1.target_n
          rw [hg1]
          exact h_pos
        · intro hc
          rcases hc with hc | hc <;> exact absurd hc (by intro h'; cases h')
        · intro hc
          exact absurd hc (by intro h'; cases h')
      · rw [if_neg htt]
        exact ⟨h_tot, Nat.zero_le _, h_pos,
          fun _ => Nat.lt_of_not_le htt, fun _ => hbs⟩
    · rw [if_neg hn]
      refine ⟨h_tot, h_b, h_pos, ?_, ?_⟩
      · intro hc
        rcases hc with hc | hc <;> rw [hmode] at hc <;> exact absurd hc (by intro h'; cases h')
      · intro hc
        rw [hmode] at hc
        exact absurd hc (by intro h'; cases h')
  | ERROR =>
    rw [stateStep_error cfg s i hmode]
    refine ⟨h_tot, h_b, h_pos, ?_, ?_⟩
    · intro hc
      rcases hc with hc | hc <;> rw [hmode] at hc <;> exact absurd hc (by intro h'; cases h')
    · intro hc
      rw [hmode] at hc
      exact absurd hc (by intro h'; cases h')

theorem handle_cmd_arming (cfg : Cfg) (s : LoopState) (t : Nat)
    (f : Option CmdContent) (h : armingCmd f = true) :
    ∃ q : LoopState × List String,
      handle_cmd cfg s t (read_cmd f).1 = .ok q ∧
      q.1.mode = Mode.STARTING ∧ q.1.total_done = 0 ∧ q.1.batch_count = 0 ∧
      0 < q.1.target_n := by
  match f with
  | none => exact absurd h (by simp [armingCmd])
  | some .invalid => exact absurd h (by simp [armingCmd])
  | some (.valid c) =>
    rw [armingCmd, Bool.and_eq_true] at h
    obtain ⟨hauto, hrest⟩ := h
    cases hpy : pyIntOfTVal (orZero c.target) with
    | error e => rw [hpy] at hrest; exact absurd hrest (by simp)
    | ok n =>
      rw [hpy] at hrest
      have hn : 0 < n := of_decide_eq_true hrest
      have hrc : (read_cmd (some (CmdContent.valid c))).1 = some c := rfl
      rw [hrc]
      unfold handle_cmd
      dsimp only
      rw [hauto]
      simp only [eq_self_iff_true, if_true, ite_true, hpy]
      rw [if_pos hn]
      exact ⟨_, rfl, rfl, rfl, rfl, by show 0 < n.toNat; omega⟩

theorem handle_cmd_nocounter (cfg : Cfg) (s : LoopState) (t : Nat)
    (f : Option CmdContent) (h : noCounterCmd f = true) :
    ∃ q : LoopState × List String,
      handle_cmd cfg s t (read_cmd f).1 = .ok q ∧
      q.1.total_done = s.total_done ∧ q.1.batch_count = s.batch_count := by
  match f with
  | none => exact ⟨(s, []), rfl, rfl, rfl⟩
  | some .invalid => exact ⟨(s, []), rfl, rfl, rfl⟩
  | some (.valid c) =>
    rw [noCounterCmd, Bool.and_eq_true] at h
    obtain ⟨hr, ha⟩ := h
    rw [Bool.not_eq_true'] at hr ha
    have hrc : (read_cmd (some (CmdContent.valid c))).1 = some c := rfl
    rw [hrc]
    unfold handle_cmd
    dsimp only
    rw [hr, ha]
    simp only [Bool.false_eq_true, if_false, ite_false]
    by_cases hc : c.calib = true
    · rw [hc]
      simp only [if_true, ite_true]
      refine ⟨_, rfl, ?_, ?_⟩
      · show ({ (pulseFire cfg s t "r_calib_req" cfg.pulse_ms).1 with
            mode := Mode.IDLE } : LoopState).total_done = s.total_done
        exact (pulseFire_counters cfg s t "r_calib_req" cfg.pulse_ms).2.1
      · exact (pulseFire_counters cfg s t "r_calib_req" cfg.pulse_ms).2.2.1
    · rw [Bool.not_eq_true] at hc
      rw [hc]
      simp only [Bool.false_eq_true, if_false, ite_false]
      exact ⟨(s, []), rfl, rfl, rfl⟩

theorem tickRest_runInv (cfg : Cfg) (s₂ : LoopState) (i : TickIn)
    (rm : List FsOp) (f0 : List String) (hbs : 0 < cfg.batch_size)
    (hInv : RunInv cfg s₂) (hm : s₂.mode ≠ Mode.IDLE) :
    RunInv cfg (tickRest cfg s₂ i rm f0).1 := by
  cases hrf : i.readFail with
  | true =>
    rw [tickRest_readfail cfg s₂ i rm f0 hrf]
    exact hInv
  | false =>
    by_cases herr :
        (if (alookup cfg.in_map "r_error").isSome then i.err_sig else 0) = 1
    · rw [tickRest_errstop cfg s₂ i rm f0 hrf herr]
      obtain ⟨h1, h2, h3, _, _⟩ := hInv
      refine ⟨h1, h2, h3, ?_, ?_⟩
      · intro hc
        rcases hc with hc | hc <;> exact absurd hc (by intro h'; cases h')
      · intro hc
        exact absurd hc (by intro h'; cases h')
    · rw [tickRest_normal cfg s₂ i rm f0 hrf herr]
      exact stateStep_runInv cfg s₂ i hbs hInv hm

theorem tick_runInv_armed (cfg : Cfg) (s : LoopState) (i : TickIn)
    (p : LoopState × TickOut) (hbs : 0 < cfg.batch_size)
    (harm : armingCmd i.cmdFile = true) (h : tick cfg s i = .ok p) :
    RunInv cfg p.1 := by
  obtain ⟨q, hcmd, hmode₂, ht₂, hb₂, htg₂⟩ :=
    handle_cmd_arming cfg (tickPre cfg s i.t) i.t i.cmdFile harm
  rw [tick_ok cfg s i q hcmd] at h
  injection h with h'
  subst h'
  apply tickRest_runInv cfg q.1 i _ q.2 hbs
  · refine ⟨?_, ?_, htg₂, ?_, ?_⟩
    · rw [ht₂]
      exact Nat.zero_le _
    · rw [hb₂]
      exact Nat.zero_le _
    · intro _
      rw [ht₂]
      exact htg₂
    · intro hc
      rw [hmode₂] at hc
      exact absurd hc (by intro h'; cases h')
  · rw [hmode₂]
    intro h'
    cases h'

theorem tick_runInv_step (cfg : Cfg) (s : LoopState) (i : TickIn)
    (p : LoopState × TickOut) (hbs : 0 < cfg.batch_size)
    (hInv : RunInv cfg s) (hm : s.mode ≠ Mode.IDLE)
    (hb : benignCmd i.cmdFile = true) (h : tick cfg s i = .ok p) :
    RunInv cfg p.1 := by
  rw [tick_benign cfg s i hb] at h
  injection h with h'
  subst h'
  obtain ⟨hm2, ht2, hb2, htg2, _, _, _⟩ := tickPre_counters cfg s i.t
  apply tickRest_runInv cfg _ i _ [] hbs
  · exact runInv_fields cfg s _ hm2 ht2 hb2 htg2 hInv
  · rw [hm2]
    exact hm

theorem reachRun_inv (cfg : Cfg) (hbs : 0 < cfg.batch_size) :
    ∀ s, ReachRun cfg s → RunInv cfg s := by
  intro s hr
  induction hr with
  | armed s i p harm h => exact tick_runInv_armed cfg s i p hbs harm h
  | step s i p _ hm hb h ih => exact tick_runInv_step cfg s i p hbs ih hm hb h

theorem stateStep_mono (cfg : Cfg) (s : LoopState) (i : TickIn) :
    s.total_done ≤ (stateStep cfg s i).1.total_done ∧
    (s.batch_count ≤ (stateStep cfg s i).1.batch_count ∨
      (stateStep cfg s i).1.batch_count = 0) := by
  cases hmode : s.mode with
  | IDLE =>
    have hstep : (stateStep cfg s i).1 =
        (if ({ s with batch_count := 0 } : LoopState).target_set ∧
            i.btn_start = 1 then
          { ({ s with batch_count := 0 } : LoopState) with mode := Mode.STARTING }
        else { s with batch_count := 0 }) := by
      unfold stateStep
      rw [hmode]
    rw [hstep]
    split
    · exact ⟨le_refl _, Or.inr rfl⟩
    · exact ⟨le_refl _, Or.inr rfl⟩
  | STARTING =>
    have hstep : (stateStep cfg s i).1 =
        { (pulseFire cfg s i.t "start_signal" cfg.pulse_ms).1 with
            batch_count := 0
            mode := Mode.PICK_IN } := by
      unfold stateStep
      rw [hmode]
    rw [hstep]
    refine ⟨?_, Or.inr rfl⟩
    show s.total_done ≤ (pulseFire cfg s i.t "start_signal" cfg.pulse_ms).1.total_done
    rw [(pulseFire_counters cfg s i.t "start_signal" cfg.pulse_ms).2.1]
  | PICK_IN =>
    by_cases hE : i.obj_sig = 1 ∧ s.obj_last = 0 ∧
        i.t - s.obj_last_edge_ms ≥ cfg.debounce_obj
    · rw [stateStep_pickin_edge cfg s i hmode hE]
      obtain ⟨hpt, hpb, _⟩ := pickBody_counters cfg
        { s with obj_last_edge_ms := i.t, obj_last := i.obj_sig,
                 batch_count := s.batch_count + 1,
                 total_done := s.total_done + 1 } i
        (save_count (s.total_done + 1) i.t)
      rw [hpt, hpb]
      exact ⟨Nat.le_succ _, Or.inl (Nat.le_succ _)⟩
    · rw [stateStep_pickin_noedge cfg s i hmode hE]
      obtain ⟨hpt, hpb, _⟩ := pickBody_counters cfg
        { s with obj_last := i.obj_sig } i []
      rw [hpt, hpb]
      exact ⟨le_refl _, Or.inl (le_refl _)⟩
  | MARKING =>
    have hstep : (stateStep cfg s i).1 = { s with mode := Mode.AFTER_MARK } := by
      unfold stateStep
      rw [hmode]
    rw [hstep]
    exact ⟨le_refl _, Or.inl (le_refl _)⟩
  | AFTER_MARK =>
    have hstep : (stateStep cfg s i).1 =
        (if i.next_sig = 1 then
          if s.total_done ≥ s.target_n then
            { (pulseFire cfg s i.t "count_ok" cfg.pulse_ms).1 with
                mode := Mode.IDLE
                batch_count := 0 }
          else { s with batch_count := 0, mode := Mode.PICK_IN }
        else s) := by
      unfold stateStep
      rw [hmode]
      by_cases hn : i.next_sig = 1
      · rw [if_pos hn, if_pos hn]
        by_cases htt : s.total_done ≥ s.target_n
        · rw [if_pos htt, if_pos htt]
        · rw [if_neg htt, if_neg htt]
      · rw [if_neg hn, if_neg hn]
    rw [hstep]
    by_cases hn : i.next_sig = 1
    · rw [if_pos hn]
      by_cases htt : s.total_done ≥ s.target_n
      · rw [if_pos htt]
        refine ⟨?_, Or.inr rfl⟩
        show s.total_done ≤ (pulseFire cfg s i.t "count_ok" cfg.pulse_ms).1.total_done
        rw [(pulseFire_counters cfg s i.t "count_ok" cfg.pulse_ms).2.1]
      · rw [if_neg htt]
        exact ⟨le_refl _, Or.inr rfl⟩
    · rw [if_neg hn]
      exact ⟨le_refl _, Or.inl (le_refl _)⟩
  | ERROR =>
    rw [stateStep_error cfg s i hmode]
    exact ⟨le_refl _, Or.inl (le_refl _)⟩

theorem tickRest_mono (cfg : Cfg) (s₂ : LoopState) (i : TickIn)
    (rm : List FsOp) (f0 : List String) :
    s₂.total_done ≤ (tickRest cfg s₂ i rm f0).1.total_done ∧
    (s₂.batch_count ≤ (tickRest cfg s₂ i rm f0).1.batch_count ∨
      (tickRest cfg s₂ i rm f0).1.batch_count = 0) := by
  cases hrf : i.readFail with
  | true =>
    rw [tickRest_readfail cfg s₂ i rm f0 hrf]
    exact ⟨le_refl _, Or.inl (le_refl _)⟩
  | false =>
    by_cases herr :
        (if (alookup cfg.in_map "r_error").isSome then i.err_sig else 0) = 1
    · rw [tickRest_errstop cfg s₂ i rm f0 hrf herr]
      exact ⟨le_refl _, Or.inl (le_refl _)⟩
    · rw [tickRest_normal cfg s₂ i rm f0 hrf herr]
      exact stateStep_mono cfg s₂ i

/-- C3 counterexample: within a single armed run (only benign inputs after
the arming command) `batch_count` drops from 2 back to 0 when the robot
reports `next_signal`, so it is not monotonically non-decreasing within a
run; and after the run completes, restarting with the start button (without
re-arming or reset) pushes `total_done` to 2 with `target_n = 1`, violating
`total_done ∈ [0, target_n]` in a reachable post-arming state. -/
theorem c3_counterexample :
    batchOf (ticks wCfg wInit wRunTrace) = some 2 ∧
    batchOf (ticks wCfg wInit wRunTrace2) = some 0 ∧
    modeOf (ticks wCfg wInit wRunTrace2) = some Mode.PICK_IN ∧
    armingCmd (wArm 1000 4).cmdFile = true ∧
    (wRunTrace2.drop 1).all (fun i => benignCmd i.cmdFile) = true ∧
    totalOf (ticks wCfg wInit wOverTrace) = some 2 ∧
    targetOf (ticks wCfg wInit wOverTrace) = some 1 := by
  exact ⟨rfl, rfl, rfl, rfl, rfl, rfl, rfl⟩

/-- C3 (amended): inside a single run — from the tick that processes an
arming command until the mode first returns to IDLE, with no further
reset/calib/auto command — `batch_count` stays in `[0, batch_size]` and
`total_done` stays in `[0, target_n]` (for positive `batch_size`); and
across any tick whose command cannot reset counters, `total_done` is
non-decreasing while `batch_count` either grows or is reset to 0 at a batch
boundary.  Outside a run (re-start without re-arm) `total_done` may exceed
`target_n`, and `batch_count` is not monotone within a run. -/
theorem c3_run_invariant :
    (∀ cfg : Cfg, 0 < cfg.batch_size → ∀ s, ReachRun cfg s →
      s.batch_count ≤ cfg.batch_size ∧ s.total_done ≤ s.target_n) ∧
    (∀ (cfg : Cfg) (s : LoopState) (i : TickIn) (p : LoopState × TickOut),
      noCounterCmd i.cmdFile = true → tick cfg s i = .ok p →
      s.total_done ≤ p.1.total_done ∧
      (s.batch_count ≤ p.1.batch_count ∨ p.1.batch_count = 0)) := by
  constructor
  · intro cfg hbs s hr
    obtain ⟨h1, h2, _, _, _⟩ := reachRun_inv cfg hbs s hr
    exact ⟨h2, h1⟩
  · intro cfg s i p hb h
    obtain ⟨q, hcmd, hqt, hqb⟩ :=
      handle_cmd_nocounter cfg (tickPre cfg s i.t) i.t i.cmdFile hb
    rw [tick_ok cfg s i q hcmd] at h
    injection h with h'
    subst h'
    obtain ⟨_, ht2, hb2, _, _, _, _⟩ := tickPre_counters cfg s i.t
    obtain ⟨hmt, hmb⟩ := tickRest_mono cfg q.1 i (read_cmd i.cmdFile).2.2 q.2
    constructor
    · calc s.total_done = q.1.total_done := by rw [hqt, ht2]
        _ ≤ _ := hmt
    · rcases hmb with hmb | hmb
      · exact Or.inl (by rw [show s.batch_count = q.1.batch_count from by
          rw [hqb, hb2]]; exact hmb)
      · exact Or.inr hmb

/-- C3 witness: the run invariant applied to the concrete state reached by
a concrete arming tick, and monotonicity applied to a concrete quiet tick. -/
theorem c3_witness :
    (0 < wCfg.batch_size ∧ armingCmd (wArm 1000 4).cmdFile = true ∧
      (thenTick wCfg wInit [] (wArm 1000 4)).map
        (fun q => decide (q.1.batch_count ≤ wCfg.batch_size ∧
          q.1.total_done ≤ q.1.target_n)) = some true) ∧
    (noCounterCmd (wQuiet 600).cmdFile = true ∧
      (thenTick wCfg wInit [] (wQuiet 600)).map
        (fun q => decide (wInit.total_done ≤ q.1.total_done)) = some true) := by
  constructor
  · refine ⟨by decide, by decide, ?_⟩
    obtain ⟨p, hp⟩ : ∃ p, tick wCfg wInit (wArm 1000 4) = .ok p := ⟨_, rfl⟩
    have hr : ReachRun wCfg p.1 :=
      ReachRun.armed wInit (wArm 1000 4) p (by decide) hp
    have h := c3_run_invariant.1 wCfg (by decide) p.1 hr
    rw [show thenTick wCfg wInit [] (wArm 1000 4) =
        (tick wCfg wInit (wArm 1000 4)).toOption from rfl, hp]
    simp [Except.toOption, h.1, h.2]
  · refine ⟨by decide, ?_⟩
    obtain ⟨p, hp⟩ : ∃ p, tick wCfg wInit (wQuiet 600) = .ok p := ⟨_, rfl⟩
    have h := c3_run_invariant.2 wCfg wInit (wQuiet 600) p (by decide) hp
    rw [show thenTick wCfg wInit [] (wQuiet 600) =
        (tick wCfg wInit (wQuiet 600)).toOption from rfl, hp]
    simp [Except.toOption, h.1]

/-! ## C10: persisted counter never read back -/

/-- C10: the initial controller state sets `total_done` to 0 no matter what
the persisted counter file holds; `load_count` would have recovered the
persisted value (7 here) but is never invoked by the controller; and the
counter file is written (atomically) on an increment tick. -/
theorem c10_count_not_restored :
    (∀ (cfg : Cfg) (cf : Option CountFile), (initState cfg cf).total_done = 0) ∧
    load_count (some (CountFile.good 7)) = 7 ∧
    load_count none = 0 ∧
    load_count (some CountFile.bad) = 0 ∧
    (stateStep wCfg { wInit with mode := .PICK_IN, target_n := 5 }
        { wQuiet 1000 with obj_sig := 1 }).2.2.contains
      (FsOp.rename "pick_counter.tmp" "pick_counter.json") = true := by
  exact ⟨fun _ _ => rfl, rfl, rfl, rfl, by decide⟩

end Piplc
